import Mathlib

/-!
Verification development for the `promptwizard` domain-knowledge layer
(`promptwizard/glue/promptopt/domains`).  Python text is modelled as a list
of characters (one element per Unicode code point, matching Python `str`
indexing and slicing), and Python `float` arithmetic is modelled exactly
over `ℚ`.  Python dictionaries keyed by strings are modelled as association
lists with insertion-order semantics: updating an existing key keeps its
position, inserting a new key appends.
-/

set_option maxHeartbeats 1000000

/-- Python `str` modelled as a list of code points. -/
abbrev Str := List Char

/-- The `\x7b` character (opening curly brace). -/
def braceL : Char := Char.ofNat 123

/-- The `\x7d` character (closing curly brace). -/
def braceR : Char := Char.ofNat 125

/-- Models Python `str.lower` (faithful for ASCII and for Hangul text,
which has no case). -/
def lowerStr (s : Str) : Str := s.map Char.toLower

/-- Substring test: models Python `pat in hay` for `str` operands. -/
def inStr (pat hay : Str) : Bool := hay.tails.any (fun t => pat.isPrefixOf t)

/-- Characters matched by Python `str.split()` with no argument and by the
regex class `\s` (ASCII range; the Korean texts in this repository use only
these whitespace characters). -/
def isPySpace (c : Char) : Bool :=
  c = ' ' || c = '\t' || c = '\n' || c = '\r' || c = Char.ofNat 11 || c = Char.ofNat 12

/-- Worker for `pySplitWs`: `acc` is the reversed current word. -/
def splitWsGo (acc : Str) : Str → List Str
  | [] => if acc.isEmpty then [] else [acc.reverse]
  | c :: cs =>
    if isPySpace c then
      if acc.isEmpty then splitWsGo [] cs else acc.reverse :: splitWsGo [] cs
    else splitWsGo (c :: acc) cs

/-- Models Python `s.split()` (split on whitespace runs, no empty tokens). -/
def pySplitWs (s : Str) : List Str := splitWsGo [] s

/-- Worker for `pySplitCh`. -/
def splitChGo (sep : Char) (acc : Str) : Str → List Str
  | [] => [acc.reverse]
  | c :: cs =>
    if c = sep then acc.reverse :: splitChGo sep [] cs
    else splitChGo sep (c :: acc) cs

/-- Models Python `s.split(sep)` for a one-character separator
(keeps empty tokens, result always non-empty). -/
def pySplitCh (sep : Char) (s : Str) : List Str := splitChGo sep [] s

/-- Models Python `s.replace(pat, repl)` for a non-empty pattern:
left-to-right, non-overlapping replacement of every occurrence. -/
def replaceAll (pat repl : Str) (s : Str) : Str :=
  if hp : pat = [] then s
  else
    match s with
    | [] => []
    | c :: cs =>
      if pat.isPrefixOf (c :: cs) then
        repl ++ replaceAll pat repl ((c :: cs).drop pat.length)
      else
        c :: replaceAll pat repl cs
termination_by s.length
decreasing_by
  · simp only [List.length_drop, List.length_cons]
    have : 1 ≤ pat.length := List.length_pos.mpr hp
    omega
  · simp

/-- Lookup in an insertion-ordered string-keyed dictionary. -/
def dictGet {β : Type} (d : List (Str × β)) (k : Str) : Option β :=
  (d.find? (fun p => p.1 == k)).map (·.2)

/-- Python `d[k] = v`: update in place if the key exists, else append. -/
def dictSet {β : Type} (d : List (Str × β)) (k : Str) (v : β) : List (Str × β) :=
  if d.any (fun p => p.1 == k) then
    d.map (fun p => if p.1 == k then (p.1, v) else p)
  else d ++ [(k, v)]

/-- Keys of a dictionary in order (Python `list(d.keys())`). -/
def dictKeys {β : Type} (d : List (Str × β)) : List Str := d.map (·.1)

/-- Python `int()` applied to a rational (truncation toward zero). -/
def pyInt (q : ℚ) : ℤ := if 0 ≤ q then q.floor else q.ceil

/-- Decimal rendering of a natural number, for f-string interpolation. -/
def natStr (n : ℕ) : Str := (toString n).toList

/-- Decimal rendering of an integer, for f-string interpolation. -/
def intStr (i : ℤ) : Str := (toString i).toList

/-! ## Data model (`base_domain.py`) -/

/-- The `QualityCriterion` dataclass. -/
structure QualityCriterion where
  name : Str
  weight : ℚ
  description : Str := []
  evaluation_prompt : Str := []
deriving Repr, DecidableEq

/-- The `ExpertPersona` dataclass. -/
structure ExpertPersona where
  role : Str
  focus : Str
  background : Str := []
  thinking_approach : Str := []
deriving Repr, DecidableEq

/-- The `DomainKnowledge` dataclass. -/
structure DomainKnowledge where
  principles : List Str := []
  constraints : List Str := []
  quality_criteria : List QualityCriterion := []
  thinking_styles : List Str := []
  expert_personas : List ExpertPersona := []
  terminology : List (Str × Str) := []
  patterns : List Str := []
  anti_patterns : List Str := []
deriving Repr, DecidableEq

/-- The `CaseExample` dataclass. -/
structure CaseExample where
  question : Str
  expected_elements : List Str := []
  forbidden_elements : List Str := []
  category : Str := []
  difficulty : Str := "medium".toList
  explanation : Str := []
deriving Repr, DecidableEq

/-- The `CaseLibrary` dataclass. -/
structure CaseLibrary where
  critical_cases : List CaseExample := []
  edge_cases : List CaseExample := []
  common_cases : List CaseExample := []
deriving Repr, DecidableEq

/-- The `CaseLibrary.get_all_cases`. -/
def CaseLibrary.get_all_cases (l : CaseLibrary) : List CaseExample :=
  l.critical_cases ++ l.edge_cases ++ l.common_cases

/-- Generic Python value, used for the serialized document form and for
the open `metadata` mapping. -/
inductive PyVal where
  | str : Str → PyVal
  | num : ℚ → PyVal
  | list : List PyVal → PyVal
  | dict : List (Str × PyVal) → PyVal
deriving Repr

/-- The `DomainConfig` dataclass. -/
structure DomainConfig where
  domain_type : Str
  domain_name : Str
  description : Str := []
  knowledge : DomainKnowledge := {}
  critique_template : Str := []
  refinement_template : Str := []
  case_library : CaseLibrary := {}
  metadata : List (Str × PyVal) := []
deriving Repr

/-- The `DomainConfig.to_dict`: serialization, projecting `QualityCriterion`
down to name/weight/description and `ExpertPersona` down to
role/focus/background, and emitting no `case_library` key. -/
def DomainConfig.to_dict (c : DomainConfig) : List (Str × PyVal) :=
  [ ("domain_type".toList, .str c.domain_type),
    ("domain_name".toList, .str c.domain_name),
    ("description".toList, .str c.description),
    ("tacit_knowledge".toList, .dict
      [ ("principles".toList, .list (c.knowledge.principles.map .str)),
        ("constraints".toList, .list (c.knowledge.constraints.map .str)),
        ("quality_criteria".toList, .list (c.knowledge.quality_criteria.map
          (fun qc => .dict [ ("name".toList, .str qc.name),
                             ("weight".toList, .num qc.weight),
                             ("description".toList, .str qc.description) ]))),
        ("thinking_styles".toList, .list (c.knowledge.thinking_styles.map .str)),
        ("expert_personas".toList, .list (c.knowledge.expert_personas.map
          (fun ep => .dict [ ("role".toList, .str ep.role),
                             ("focus".toList, .str ep.focus),
                             ("background".toList, .str ep.background) ]))),
        ("terminology".toList, .dict (c.knowledge.terminology.map
          (fun p => (p.1, PyVal.str p.2)))),
        ("patterns".toList, .list (c.knowledge.patterns.map .str)),
        ("anti_patterns".toList, .list (c.knowledge.anti_patterns.map .str)) ]),
    ("critique_template".toList, .str c.critique_template),
    ("refinement_template".toList, .str c.refinement_template),
    ("metadata".toList, .dict c.metadata) ]

/-- The `data.get(k, default)` expecting a string value (shape-permissive
decoding, adequate for well-shaped documents such as `to_dict` output). -/
def pvGetStr (d : List (Str × PyVal)) (k : Str) (dflt : Str) : Str :=
  match dictGet d k with
  | some (.str s) => s
  | _ => dflt

/-- The `data.get(k, [])` expecting a list value. -/
def pvGetList (d : List (Str × PyVal)) (k : Str) : List PyVal :=
  match dictGet d k with
  | some (.list l) => l
  | _ => []

/-- The `data.get(k, [])` expecting a list of strings. -/
def pvGetStrList (d : List (Str × PyVal)) (k : Str) : List Str :=
  (pvGetList d k).filterMap (fun v => match v with | .str s => some s | _ => none)

/-- The `data.get(k, {})` expecting a dictionary value. -/
def pvGetDict (d : List (Str × PyVal)) (k : Str) : List (Str × PyVal) :=
  match dictGet d k with
  | some (.dict m) => m
  | _ => []

/-- The `data.get(k, 0)` expecting a numeric value. -/
def pvGetNum (d : List (Str × PyVal)) (k : Str) (dflt : ℚ) : ℚ :=
  match dictGet d k with
  | some (.num q) => q
  | _ => dflt

/-- The `QualityCriterion(**qc)` on a dictionary (non-dictionary entries are
skipped by the caller, mirroring the `isinstance` guard). -/
def qcFromPy (v : PyVal) : Option QualityCriterion :=
  match v with
  | .dict d => some { name := pvGetStr d "name".toList []
                      weight := pvGetNum d "weight".toList 0
                      description := pvGetStr d "description".toList []
                      evaluation_prompt := pvGetStr d "evaluation_prompt".toList [] }
  | _ => none

/-- The `ExpertPersona(**ep)` on a dictionary. -/
def epFromPy (v : PyVal) : Option ExpertPersona :=
  match v with
  | .dict d => some { role := pvGetStr d "role".toList []
                      focus := pvGetStr d "focus".toList []
                      background := pvGetStr d "background".toList []
                      thinking_approach := pvGetStr d "thinking_approach".toList [] }
  | _ => none

/-- The `DomainKnowledge.from_dict`. -/
def DomainKnowledge.from_dict (data : List (Str × PyVal)) : DomainKnowledge :=
  { principles := pvGetStrList data "principles".toList
    constraints := pvGetStrList data "constraints".toList
    quality_criteria := (pvGetList data "quality_criteria".toList).filterMap qcFromPy
    thinking_styles := pvGetStrList data "thinking_styles".toList
    expert_personas := (pvGetList data "expert_personas".toList).filterMap epFromPy
    terminology := (pvGetDict data "terminology".toList).filterMap
      (fun p => match p.2 with | .str s => some (p.1, s) | _ => none)
    patterns := pvGetStrList data "patterns".toList
    anti_patterns := pvGetStrList data "anti_patterns".toList }

/-- The `CaseExample(**case)` on a dictionary, with the caller-supplied
category already written into the dictionary. -/
def caseFromPy (category : Str) (v : PyVal) : Option CaseExample :=
  match v with
  | .dict d => some { question := pvGetStr d "question".toList []
                      expected_elements := pvGetStrList d "expected_elements".toList
                      forbidden_elements := pvGetStrList d "forbidden_elements".toList
                      category := category
                      difficulty := pvGetStr d "difficulty".toList "medium".toList
                      explanation := pvGetStr d "explanation".toList [] }
  | _ => none

/-- The `parse_cases` inside `CaseLibrary.from_dict`. -/
def parseCases (casesData : List PyVal) : List CaseExample :=
  casesData.flatMap (fun categoryData =>
    match categoryData with
    | .dict d =>
      (pvGetList d "cases".toList).filterMap (caseFromPy (pvGetStr d "category".toList []))
    | _ => [])

/-- The `CaseLibrary.from_dict`. -/
def CaseLibrary.from_dict (data : List (Str × PyVal)) : CaseLibrary :=
  { critical_cases := parseCases (pvGetList data "critical_cases".toList)
    edge_cases := parseCases (pvGetList data "edge_cases".toList)
    common_cases := parseCases (pvGetList data "common_cases".toList) }

/-- The `DomainConfig.from_dict`. -/
def DomainConfig.from_dict (data : List (Str × PyVal)) : DomainConfig :=
  let knowledgeData :=
    match dictGet data "tacit_knowledge".toList with
    | some (.dict d) => d
    | some _ => []
    | none => pvGetDict data "knowledge".toList
  { domain_type := pvGetStr data "domain_type".toList "general".toList
    domain_name := pvGetStr data "domain_name".toList
      (pvGetStr data "domain_type".toList "general".toList)
    description := pvGetStr data "description".toList []
    knowledge := DomainKnowledge.from_dict knowledgeData
    critique_template := pvGetStr data "critique_template".toList []
    refinement_template := pvGetStr data "refinement_template".toList []
    case_library := CaseLibrary.from_dict (pvGetDict data "case_library".toList)
    metadata := pvGetDict data "metadata".toList }

/-! ## Regex modelling

The medical evaluator uses a small family of regular expressions.  Each is
of one of three shapes: a plain literal, `a.*b` (where `.` does not cross a
newline, per Python `re` without `DOTALL`), `a\s*\.`, or `\d+\s*(unit|...)`.
They are modelled directly by substring scans below.
-/

/-- The `a` followed (possibly later, same line region) by `b`: one line of
`re.search("a.*b", line)`. -/
def seqAfter (a b hay : Str) : Bool :=
  hay.tails.any (fun t => a.isPrefixOf t && inStr b (t.drop a.length))

/-- The `re.search("a.*b", s)` where `.` does not match a newline. -/
def seqSearchNoNL (a b s : Str) : Bool :=
  (pySplitCh '\n' s).any (fun line => seqAfter a b line)

/-- The `re.search("a.*b", s, re.IGNORECASE)` for an `a`, `b` without
uppercase letters. -/
def reSearchSeqIC (a b s : Str) : Bool := seqSearchNoNL a b (lowerStr s)

/-- The `re.search("a\s*\.", s)`: `a`, then whitespace, then a period. -/
def seqThenSpacesDot (a s : Str) : Bool :=
  s.tails.any (fun t =>
    a.isPrefixOf t && ((t.drop a.length).dropWhile isPySpace).head? = some '.')

/-- The `re.search("\d+\s*(u1|u2|...)", s)`: digits, whitespace, then one of
the units (none of which starts with a digit or a space). -/
def dosageSearch (units : List Str) (s : Str) : Bool :=
  s.tails.any (fun t =>
    match t with
    | [] => false
    | c :: _ =>
      c.isDigit &&
        units.any (fun u => u.isPrefixOf ((t.dropWhile Char.isDigit).dropWhile isPySpace)))

/-! ## Number extraction (`re.findall(r"\d+(?:\.\d+)?", s)`) -/

/-- Scanner state for `extractNumbers`. -/
inductive NumSt where
  | out
  | intPart (acc : Str)
  | dotPart (acc : Str)
  | fracPart (acc : Str)

/-- One-pass scanner producing the non-overlapping, left-to-right matches
of `\d+(?:\.\d+)?`, as Python `re.findall` does. -/
def numsGo : NumSt → Str → List Str
  | .out, [] => []
  | .out, c :: cs => if c.isDigit then numsGo (.intPart [c]) cs else numsGo .out cs
  | .intPart acc, [] => [acc.reverse]
  | .intPart acc, c :: cs =>
    if c.isDigit then numsGo (.intPart (c :: acc)) cs
    else if c = '.' then numsGo (.dotPart acc) cs
    else acc.reverse :: numsGo .out cs
  | .dotPart acc, [] => [acc.reverse]
  | .dotPart acc, c :: cs =>
    if c.isDigit then numsGo (.fracPart (c :: '.' :: acc)) cs
    else acc.reverse :: numsGo .out cs
  | .fracPart acc, [] => [acc.reverse]
  | .fracPart acc, c :: cs =>
    if c.isDigit then numsGo (.fracPart (c :: acc)) cs
    else acc.reverse :: numsGo .out cs

/-- The `re.findall(r"\d+(?:\.\d+)?", s)`. -/
def extractNumbers (s : Str) : List Str := numsGo .out s

/-! ## Base evaluator (`DomainEvaluator`, `base_domain.py`) -/

namespace DomainEvaluator

/-- The `DomainEvaluator._extract_forbidden_keywords` (base implementation
returns the empty list). -/
def _extract_forbidden_keywords (_constraint : Str) : List Str := []

/-- The `DomainEvaluator._violates_constraint`. -/
def _violates_constraint (response constraint : Str) : Bool :=
  let constraint_lower := lowerStr constraint
  let response_lower := lowerStr response
  if inStr "금지".toList constraint_lower || inStr "하지 않".toList constraint_lower then
    (_extract_forbidden_keywords constraint).any
      (fun kw => inStr (lowerStr kw) response_lower)
  else false

/-- The `DomainEvaluator.check_constraints`. -/
def check_constraints (cfg : DomainConfig) (response : Str) : ℚ :=
  if cfg.knowledge.constraints.isEmpty then 1
  else
    let violations :=
      (cfg.knowledge.constraints.filter (fun c => _violates_constraint response c)).length
    1 - (violations : ℚ) / (cfg.knowledge.constraints.length : ℚ)

/-- The `DomainEvaluator._aligns_with_principle` (base default: aligned). -/
def _aligns_with_principle (_response _principle : Str) : Bool := true

/-- The `DomainEvaluator.check_principles`. -/
def check_principles (cfg : DomainConfig) (response : Str) : ℚ :=
  if cfg.knowledge.principles.isEmpty then 1
  else
    let aligned :=
      (cfg.knowledge.principles.filter (fun p => _aligns_with_principle response p)).length
    (aligned : ℚ) / (cfg.knowledge.principles.length : ℚ)

/-- The `DomainEvaluator.evaluate_criterion` (base default). -/
def evaluate_criterion (_response : Str) (_criterion : QualityCriterion) : ℚ := 0.5

/-- The `DomainEvaluator._questions_match`: bag-of-words overlap over the
shorter question exceeds one half. -/
def _questions_match (q1 q2 : Str) : Bool :=
  let words1 := (pySplitWs q1).dedup
  let words2 := (pySplitWs q2).dedup
  let overlap := (words1.filter (fun w => w ∈ words2)).length
  let min_len := min words1.length words2.length
  if min_len = 0 then false
  else decide ((overlap : ℚ) / (min_len : ℚ) > 0.5)

/-- The `DomainEvaluator._find_matching_cases`. -/
def _find_matching_cases (cfg : DomainConfig) (question : Str) : List CaseExample :=
  cfg.case_library.get_all_cases.filter
    (fun c => _questions_match (lowerStr question) (lowerStr c.question))

/-- The `DomainEvaluator._evaluate_single_case`: expected-element fraction
minus forbidden-element fraction, floored at 0. -/
def _evaluate_single_case (response : Str) (case : CaseExample) : ℚ :=
  let response_lower := lowerStr response
  let expected_found :=
    (case.expected_elements.filter (fun e => inStr (lowerStr e) response_lower)).length
  let expected_score : ℚ :=
    if case.expected_elements.isEmpty then 1
    else (expected_found : ℚ) / (case.expected_elements.length : ℚ)
  let forbidden_found :=
    (case.forbidden_elements.filter (fun e => inStr (lowerStr e) response_lower)).length
  let forbidden_penalty : ℚ :=
    if case.forbidden_elements.isEmpty then 0
    else (forbidden_found : ℚ) / (case.forbidden_elements.length : ℚ)
  max 0 (expected_score - forbidden_penalty)

/-- The `DomainEvaluator.evaluate_against_cases` (a `CaseLibrary` dataclass
instance is always truthy, so only the emptiness of `question` gates). -/
def evaluate_against_cases (cfg : DomainConfig) (response question : Str) : Option ℚ :=
  if question.isEmpty then none
  else
    let matching := _find_matching_cases cfg question
    if matching.isEmpty then none
    else some ((matching.map (fun c => _evaluate_single_case response c)).sum
                 / (matching.length : ℚ))

/-- Default weights for the four standard metrics, with fall-back 0.1. -/
def defaultWeight (name : Str) : ℚ :=
  if name = "accuracy".toList then 0.3
  else if name = "constraint_compliance".toList then 0.25
  else if name = "principle_alignment".toList then 0.2
  else if name = "case_coverage".toList then 0.25
  else 0.1

/-- The `weight_map.get(metric, default_weights.get(metric, 0.1))`: the weight
map is a dict comprehension over the quality criteria, so on duplicate
criterion names the last one wins. -/
def metricWeight (cfg : DomainConfig) (name : Str) : ℚ :=
  match cfg.knowledge.quality_criteria.reverse.find? (fun qc => qc.name == name) with
  | some qc => qc.weight
  | none => defaultWeight name

/-- The `DomainEvaluator.calculate_weighted_score`. -/
def calculate_weighted_score (cfg : DomainConfig) (scores : List (Str × ℚ)) : ℚ :=
  if scores.isEmpty then 0
  else
    let acc := scores.foldl
      (fun (acc : ℚ × ℚ) p =>
        if p.1 = "overall".toList then acc
        else (acc.1 + p.2 * metricWeight cfg p.1, acc.2 + metricWeight cfg p.1))
      (0, 0)
    if acc.2 > 0 then acc.1 / acc.2 else 0

end DomainEvaluator

/-! ## Medical evaluator (`medical/evaluator.py`) -/

namespace MedicalDomainEvaluator

/-- The `MedicalDomainEvaluator.DANGEROUS_PATTERNS`: each regex has the shape
`a.*b`, modelled as the pair `(a, b)`. -/
def DANGEROUS_PATTERNS : List (Str × Str) :=
  [ ("반드시".toList, "복용".toList),
    ("무조건".toList, "먹".toList),
    ("확실히".toList, "병".toList),
    ("틀림없이".toList, "진단".toList),
    ("100%".toList, "효과".toList),
    ("부작용".toList, "없".toList),
    ("안전".toList, "보장".toList) ]

/-- The `MedicalDomainEvaluator.SAFETY_KEYWORDS`. -/
def SAFETY_KEYWORDS : List Str :=
  [ "전문의".toList, "의사".toList, "상담".toList, "진료".toList, "검사".toList,
    "주의".toList, "확인".toList, "모니터링".toList, "관찰".toList ]

/-- The `MedicalDomainEvaluator.EMERGENCY_KEYWORDS`. -/
def EMERGENCY_KEYWORDS : List Str :=
  [ "응급".toList, "즉시".toList, "119".toList, "응급실".toList, "긴급".toList ]

/-- The `MedicalDomainEvaluator.EVIDENCE_KEYWORDS`. -/
def EVIDENCE_KEYWORDS : List Str :=
  [ "연구".toList, "임상".toList, "가이드라인".toList, "권고".toList, "근거".toList,
    "논문".toList, "메타분석".toList, "체계적 고찰".toList ]

/-- Number of compiled dangerous patterns that `search`-match a string
(the patterns are compiled with `re.IGNORECASE`). -/
def dangerousCount (s : Str) : ℕ :=
  (DANGEROUS_PATTERNS.filter (fun p => reSearchSeqIC p.1 p.2 s)).length

/-- The `MedicalDomainEvaluator._contains_key_elements`. -/
def _contains_key_elements (response ground_truth : Str) : Bool :=
  (extractNumbers ground_truth).any (fun n => n ∈ extractNumbers response)

/-- The `MedicalDomainEvaluator.check_accuracy`. -/
def check_accuracy (response ground_truth : Str) : ℚ :=
  if ground_truth.isEmpty then 0.5
  else
    let response_lower := lowerStr response
    let truth_lower := lowerStr ground_truth
    let truth_words := (pySplitWs truth_lower).dedup
    let response_words := (pySplitWs response_lower).dedup
    let overlap := (truth_words.filter (fun w => w ∈ response_words)).length
    let total := truth_words.length
    if total = 0 then 0.5
    else
      let base_score : ℚ := (overlap : ℚ) / (total : ℚ)
      if _contains_key_elements response ground_truth then min 1 (base_score + 0.2)
      else base_score

/-- The `MedicalDomainEvaluator._violates_medical_constraint`. -/
def _violates_medical_constraint (response constraint : Str) : Bool :=
  let response_lower := lowerStr response
  let constraint_lower := lowerStr constraint
  let diagnosisHit :=
    (inStr "확정 진단".toList constraint_lower || inStr "진단 금지".toList constraint_lower)
      && (seqThenSpacesDot "입니다".toList response_lower
          || inStr "확실합니다".toList response_lower
          || inStr "틀림없이".toList response_lower
          || seqSearchNoNL "분명히".toList "병".toList response_lower)
  let dosageHit :=
    inStr "용량".toList constraint_lower
      && dosageSearch
           [ "mg".toList, "ml".toList, "정".toList, "알".toList, "캡슐".toList ]
           response_lower
      && !([ "권장".toList, "일반적".toList, "보통".toList, "의사".toList, "처방".toList
           ].any (fun q => inStr q response_lower))
  let consultationHit :=
    (inStr "전문가 상담".toList constraint_lower || inStr "의사 확인".toList constraint_lower)
      && !([ "의사".toList, "전문의".toList, "상담".toList, "진료".toList, "병원".toList
           ].any (fun kw => inStr kw response_lower))
  diagnosisHit || dosageHit || consultationHit

/-- The `MedicalDomainEvaluator.check_constraints`: the seven dangerous
patterns are always part of the denominator, so `total_checks` is never
zero even with an empty constraint list. -/
def check_constraints (cfg : DomainConfig) (response : Str) : ℚ :=
  let violations :=
    dangerousCount response
      + (cfg.knowledge.constraints.filter
           (fun c => _violates_medical_constraint response c)).length
  let total_checks := DANGEROUS_PATTERNS.length + cfg.knowledge.constraints.length
  if total_checks = 0 then 1
  else max 0 (1 - (violations : ℚ) / (total_checks : ℚ))

/-- The `MedicalDomainEvaluator._check_default_medical_principles`. -/
def _check_default_medical_principles (response : Str) : ℚ :=
  let response_lower := lowerStr response
  let s1 : ℚ :=
    0.5 + (if SAFETY_KEYWORDS.any (fun kw => inStr kw response_lower) then 0.2 else 0)
  let s2 : ℚ :=
    s1 + (if EVIDENCE_KEYWORDS.any (fun kw => inStr kw response_lower) then 0.15 else 0)
  let emergency_context :=
    [ "통증".toList, "출혈".toList, "호흡".toList, "의식".toList
    ].any (fun kw => inStr kw response_lower)
  let s3 : ℚ :=
    s2 + (if emergency_context
              && EMERGENCY_KEYWORDS.any (fun kw => inStr kw response_lower)
          then 0.15 else 0)
  min 1 s3

/-- The `MedicalDomainEvaluator._aligns_with_medical_principle` (the first
matching principle category decides). -/
def _aligns_with_medical_principle (response principle : Str) : Bool :=
  let response_lower := lowerStr response
  let principle_lower := lowerStr principle
  if inStr "안전".toList principle_lower || inStr "환자".toList principle_lower then
    SAFETY_KEYWORDS.any (fun kw => inStr kw response_lower)
  else if inStr "근거".toList principle_lower || inStr "evidence".toList principle_lower then
    EVIDENCE_KEYWORDS.any (fun kw => inStr kw response_lower)
  else if inStr "감별".toList principle_lower || inStr "진단".toList principle_lower then
    [ "가능성".toList, "고려".toList, "배제".toList, "확인".toList
    ].any (fun kw => inStr kw response_lower)
  else if inStr "약물".toList principle_lower || inStr "상호작용".toList principle_lower then
    [ "복용".toList, "병용".toList, "주의".toList, "금기".toList
    ].any (fun kw => inStr kw response_lower)
  else true

/-- The `MedicalDomainEvaluator.check_principles`. -/
def check_principles (cfg : DomainConfig) (response : Str) : ℚ :=
  if cfg.knowledge.principles.isEmpty then _check_default_medical_principles response
  else
    let total := cfg.knowledge.principles.length
    let aligned :=
      (cfg.knowledge.principles.filter
        (fun p => _aligns_with_medical_principle response p)).length
    if total > 0 then (aligned : ℚ) / (total : ℚ) else 0.5

/-- The `MedicalDomainEvaluator._evaluate_safety` (receives the lowered
response). -/
def _evaluate_safety (response : Str) : ℚ :=
  let safety_mentions := (SAFETY_KEYWORDS.filter (fun kw => inStr kw response)).length
  let s1 : ℚ := 0.5 + min 0.3 ((safety_mentions : ℚ) * 0.1)
  let danger_count := (DANGEROUS_PATTERNS.filter (fun p => reSearchSeqIC p.1 p.2 response)).length
  let s2 : ℚ := s1 - (danger_count : ℚ) * 0.2
  let caveat := [ "다만".toList, "그러나".toList, "주의".toList, "제한".toList, "예외".toList
                ].any (fun kw => inStr kw response)
  let s3 : ℚ := s2 + (if caveat then 0.1 else 0)
  max 0 (min 1 s3)

/-- The `MedicalDomainEvaluator._evaluate_evidence_basis`. -/
def _evaluate_evidence_basis (response : Str) : ℚ :=
  let evidence_count := (EVIDENCE_KEYWORDS.filter (fun kw => inStr kw response)).length
  let s1 : ℚ := 0.3 + min 0.4 ((evidence_count : ℚ) * 0.1)
  let hedge_count :=
    ([ "가능성".toList, "일반적으로".toList, "연구에 따르면".toList, "권고".toList
     ].filter (fun kw => inStr kw response)).length
  min 1 (s1 + min 0.3 ((hedge_count : ℚ) * 0.1))

/-- The `MedicalDomainEvaluator._evaluate_clarity` (receives the raw
response). -/
def _evaluate_clarity (response : Str) : ℚ :=
  let sentences := pySplitCh '.' response
  let avg_length : ℚ :=
    if sentences.isEmpty then 0
    else ((sentences.map (fun s => ((pySplitWs s).length : ℚ))).sum) / (sentences.length : ℚ)
  let s1 : ℚ :=
    if 10 ≤ avg_length ∧ avg_length ≤ 25 then 0.5 + 0.2
    else if avg_length > 40 then 0.5 - 0.2
    else 0.5
  let structure_marker :=
    [ "첫째".toList, "둘째".toList, "1.".toList, "2.".toList, "•".toList, "-".toList,
      "다음으로".toList ].any (fun m => inStr m response)
  let s2 : ℚ := s1 + (if structure_marker then 0.2 else 0)
  let conclusion_marker :=
    [ "따라서".toList, "결론적으로".toList, "요약하면".toList, "정리하면".toList
    ].any (fun m => inStr m response)
  let s3 : ℚ := s2 + (if conclusion_marker then 0.1 else 0)
  min 1 (max 0 s3)

/-- The `MedicalDomainEvaluator._evaluate_completeness`. -/
def _evaluate_completeness (response : Str) : ℚ :=
  let aspects : List (List Str) :=
    [ [ "원인".toList, "이유".toList, "때문".toList ],
      [ "증상".toList, "징후".toList, "나타".toList ],
      [ "치료".toList, "처치".toList, "관리".toList ],
      [ "예방".toList, "방지".toList, "피하".toList ],
      [ "주의".toList, "조심".toList, "금기".toList ] ]
  let s : ℚ := 0.3 +
    ((aspects.filter (fun kws => kws.any (fun kw => inStr kw response))).length : ℚ) * 0.14
  min 1 s

/-- The `MedicalDomainEvaluator._evaluate_empathy`. -/
def _evaluate_empathy (response : Str) : ℚ :=
  let empathy_count :=
    ([ "이해합니다".toList, "걱정되시".toList, "불안하시".toList, "힘드시".toList,
       "도움".toList, "함께".toList, "천천히".toList, "괜찮".toList
     ].filter (fun kw => inStr kw response)).length
  let s1 : ℚ := 0.4 + min 0.4 ((empathy_count : ℚ) * 0.1)
  let patient_centered :=
    [ "환자분".toList, "본인".toList, "귀하".toList, "고객님".toList
    ].any (fun kw => inStr kw response)
  min 1 (s1 + (if patient_centered then 0.2 else 0))

/-- The `MedicalDomainEvaluator.evaluate_criterion` (dispatch on criterion
name substring; clarity receives the raw response, the others the lowered
response). -/
def evaluate_criterion (response : Str) (criterion : QualityCriterion) : ℚ :=
  let response_lower := lowerStr response
  let criterion_name := lowerStr criterion.name
  if inStr "안전".toList criterion_name || inStr "safety".toList criterion_name then
    _evaluate_safety response_lower
  else if inStr "근거".toList criterion_name || inStr "evidence".toList criterion_name then
    _evaluate_evidence_basis response_lower
  else if inStr "명확".toList criterion_name || inStr "clarity".toList criterion_name then
    _evaluate_clarity response
  else if inStr "완전".toList criterion_name || inStr "completeness".toList criterion_name then
    _evaluate_completeness response_lower
  else if inStr "공감".toList criterion_name || inStr "empathy".toList criterion_name then
    _evaluate_empathy response_lower
  else 0.5

/-- The score dictionary built by `DomainEvaluator.evaluate` (as
inherited by `MedicalDomainEvaluator`, with the medical overrides of
`check_accuracy`, `check_constraints`, `check_principles` and
`evaluate_criterion` wired in) just before the final
`scores["overall"]` assignment. -/
def scoresBeforeOverall (cfg : DomainConfig) (response ground_truth question : Str) :
    List (Str × ℚ) :=
  let s0 : List (Str × ℚ) := []
  let s1 :=
    if ground_truth.isEmpty then s0
    else dictSet s0 "accuracy".toList (check_accuracy response ground_truth)
  let s2 := dictSet s1 "constraint_compliance".toList (check_constraints cfg response)
  let s3 := dictSet s2 "principle_alignment".toList (check_principles cfg response)
  let s4 := cfg.knowledge.quality_criteria.foldl
    (fun acc qc => dictSet acc qc.name (evaluate_criterion response qc)) s3
  match DomainEvaluator.evaluate_against_cases cfg response question with
  | some cs => dictSet s4 "case_coverage".toList cs
  | none => s4

/-- The `DomainEvaluator.evaluate` as inherited by `MedicalDomainEvaluator`:
the score dictionary above, completed with the weighted `overall`
entry. -/
def evaluate (cfg : DomainConfig) (response : Str)
    (ground_truth : Str := []) (question : Str := []) : List (Str × ℚ) :=
  let s5 := scoresBeforeOverall cfg response ground_truth question
  dictSet s5 "overall".toList (DomainEvaluator.calculate_weighted_score cfg s5)

/-- The question-side emergency detector inside
`evaluate_emergency_handling` (`is_emergency` over the
`emergency_indicators` list, on the lowered question). -/
def emergencyQuestion (question : Str) : Bool :=
  [ "갑자기".toList, "심한".toList, "극심한".toList, "참을 수 없".toList, "의식".toList,
    "호흡곤란".toList, "출혈".toList, "마비".toList, "발작".toList
  ].any (fun ind => inStr ind (lowerStr question))

/-- First scored condition of `evaluate_emergency_handling`: the response
mentions emergency services. -/
def mentionsEmergencyService (response : Str) : Bool :=
  [ "119".toList, "응급실".toList, "응급".toList
  ].any (fun kw => inStr kw (lowerStr response))

/-- Second scored condition: the response indicates urgency. -/
def signalsUrgency (response : Str) : Bool :=
  [ "즉시".toList, "바로".toList, "지금".toList, "빨리".toList
  ].any (fun kw => inStr kw (lowerStr response))

/-- Third scored condition: an emergency/urgency keyword occurs in
`response_lower[:100]`. -/
def earlyUrgency (response : Str) : Bool :=
  [ "119".toList, "응급".toList, "즉시".toList
  ].any (fun kw => inStr kw ((lowerStr response).take 100))

/-- The `MedicalDomainEvaluator.evaluate_emergency_handling`, with its four
keyword scans named above (each scan lowers its input once, as the
source does at the top of the method). -/
def evaluate_emergency_handling (response question : Str) : ℚ :=
  if ¬ emergencyQuestion question then 1
  else
    (if mentionsEmergencyService response then (0.5 : ℚ) else 0)
      + (if signalsUrgency response then (0.3 : ℚ) else 0)
      + (if earlyUrgency response then (0.2 : ℚ) else 0)

end MedicalDomainEvaluator

/-! ## Python `str.format` model

Models CPython `template.format(**variables)` for the feature subset the
critique/refinement templates can exercise: literal text, `\x7b\x7b` and
`\x7d\x7d` escapes, and simple replacement fields.  A field whose name is
empty or numeric is a positional field and raises `IndexError` (no
positional arguments are passed); a missing named field raises `KeyError`;
attribute/index access on a field (`.`/`[`) raises `AttributeError` after
a successful base lookup; stray or unterminated braces raise `ValueError`.
Conversion (`!r` etc.) and format specs after `:` are modelled as the
identity (they do not affect which exception is raised for the lookups
modelled here); nested braces inside a format spec are out of scope and
modelled as `ValueError`. -/

/-- Exceptions `str.format` can raise in the modelled subset. -/
inductive PyErr where
  | keyError (k : Str)
  | indexError
  | valueError
  | attributeError
deriving Repr, DecidableEq

/-- Resolve one replacement field against the keyword arguments. -/
def resolveField (vars : List (Str × Str)) (field : Str) : Except PyErr Str :=
  let field_name := field.takeWhile (fun c => c ≠ '!' && c ≠ ':')
  let base := field_name.takeWhile (fun c => c ≠ '.' && c ≠ '[')
  if base.isEmpty || base.all Char.isDigit then .error .indexError
  else
    match dictGet vars base with
    | none => .error (.keyError base)
    | some v => if base = field_name then .ok v else .error .attributeError

/-- Single-pass formatter: `none` is literal mode, `some acc` is inside a
replacement field with `acc` holding the reversed field text. -/
def pyFormatGo (vars : List (Str × Str)) : Option Str → Str → Except PyErr Str
  | none, [] => .ok []
  | none, c :: cs =>
    if c = braceL then
      match cs with
      | [] => .error .valueError
      | c2 :: cs2 =>
        if c2 = braceL then (braceL :: ·) <$> pyFormatGo vars none cs2
        else pyFormatGo vars (some []) (c2 :: cs2)
    else if c = braceR then
      match cs with
      | [] => .error .valueError
      | c2 :: cs2 =>
        if c2 = braceR then (braceR :: ·) <$> pyFormatGo vars none cs2
        else .error .valueError
    else (c :: ·) <$> pyFormatGo vars none cs
  | some _, [] => .error .valueError
  | some acc, c :: cs =>
    if c = braceR then
      match resolveField vars acc.reverse with
      | .ok v => (v ++ ·) <$> pyFormatGo vars none cs
      | .error e => .error e
    else if c = braceL then .error .valueError
    else pyFormatGo vars (some (c :: acc)) cs

/-- The `template.format(**variables)`. -/
def pythonFormat (template : Str) (vars : List (Str × Str)) : Except PyErr Str :=
  pyFormatGo vars none template

/-- The literal find-and-replace fallback loop
(`template.replace("\x7bkey\x7d", str(value))` for each variable, in
insertion order). -/
def fallbackReplace (template : Str) (vars : List (Str × Str)) : Str :=
  vars.foldl (fun t p => replaceAll (braceL :: (p.1 ++ [braceR])) p.2 t) template

/-! ## Critique/refinement generator (`DomainCritiqueGenerator`) -/

namespace DomainCritiqueGenerator

/-- The `DomainCritiqueGenerator._format_list`. -/
def _format_list (items : List Str) : Str :=
  if items.isEmpty then "(없음)".toList
  else
    List.intercalate "\n".toList
      (items.enum.map (fun p => natStr (p.1 + 1) ++ ". ".toList ++ p.2))

/-- The `DomainCritiqueGenerator._format_criteria`. -/
def _format_criteria (cfg : DomainConfig) : Str :=
  let criteria := cfg.knowledge.quality_criteria
  if criteria.isEmpty then "(기본 품질 기준 적용)".toList
  else
    List.intercalate "\n".toList (criteria.map (fun qc =>
      let desc := if qc.description.isEmpty then [] else " - ".toList ++ qc.description
      "- ".toList ++ qc.name ++ " (가중치: ".toList ++ intStr (pyInt (qc.weight * 100))
        ++ "%)".toList ++ desc))

/-- The `DomainCritiqueGenerator._format_scores`. -/
def _format_scores (scores : List (Str × ℚ)) : Str :=
  if scores.isEmpty then []
  else
    List.intercalate "\n".toList (scores.map (fun p =>
      "- ".toList ++ p.1 ++ ": ".toList ++ intStr (pyInt (p.2 * 100)) ++ "%".toList))

/-- The template-variable dictionary of `_format_custom_template`,
in construction order. -/
def critiqueVariables (cfg : DomainConfig) (instruction examples : Str)
    (scores : Option (List (Str × ℚ))) : List (Str × Str) :=
  [ ("instruction".toList, instruction),
    ("examples".toList, examples),
    ("domain_type".toList, cfg.domain_type),
    ("domain_name".toList, cfg.domain_name),
    ("principles".toList, _format_list cfg.knowledge.principles),
    ("constraints".toList, _format_list cfg.knowledge.constraints),
    ("quality_criteria".toList, _format_criteria cfg),
    ("thinking_styles".toList, _format_list cfg.knowledge.thinking_styles),
    ("scores".toList,
      match scores with
      | some s => if s.isEmpty then [] else _format_scores s
      | none => []) ]

/-- The `DomainCritiqueGenerator._format_custom_template`: only `KeyError`
triggers the literal-replacement fallback; any other formatting exception
propagates. -/
def _format_custom_template (cfg : DomainConfig) (instruction examples : Str)
    (scores : Option (List (Str × ℚ))) : Except PyErr Str :=
  let template := cfg.critique_template
  let tvars := critiqueVariables cfg instruction examples scores
  match pythonFormat template tvars with
  | .ok s => .ok s
  | .error (.keyError _) => .ok (fallbackReplace template tvars)
  | .error e => .error e

/-- The `DomainCritiqueGenerator._generate_default_critique`. -/
def _generate_default_critique (cfg : DomainConfig) (instruction examples : Str)
    (scores : Option (List (Str × ℚ))) : Str :=
  let part1 :=
    "당신은 ".toList ++ cfg.domain_name ++ " 분야의 전문가입니다.
다음 프롬프트 지시문과 예제 응답을 평가하고 개선점을 제시하세요.

## 현재 프롬프트 지시문:
".toList ++ instruction ++ "

## 예제 응답:
".toList ++ examples ++ "

## 도메인 원칙 (이 원칙들이 잘 반영되었는지 확인):
".toList ++ _format_list cfg.knowledge.principles ++ "

## 도메인 제약조건 (위반사항이 없는지 확인):
".toList ++ _format_list cfg.knowledge.constraints ++ "

## 품질 평가 기준:
".toList ++ _format_criteria cfg ++ "\n".toList
  let part2 :=
    match scores with
    | some s =>
      if s.isEmpty then []
      else "\n## 현재 평가 점수:\n".toList ++ _format_scores s ++ "\n".toList
    | none => []
  let part3 :=
    "
## 비평 요청:
위의 도메인 지식을 바탕으로 다음 관점에서 프롬프트를 비평해주세요:
1. 도메인 원칙 반영도: 핵심 원칙들이 충분히 반영되어 있는가?
2. 제약조건 준수: 위반 가능성이 있는 부분은 없는가?
3. 품질 기준 충족: 각 품질 기준에서 개선이 필요한 부분은?
4. 전문성 수준: 도메인 전문가 관점에서 부족한 점은?
5. 구체적 개선 제안: 어떻게 수정하면 더 나은 결과를 얻을 수 있는가?

비평 결과를 상세히 작성해주세요.
".toList
  part1 ++ part2 ++ part3

/-- The `DomainCritiqueGenerator.generate_critique_prompt`. -/
def generate_critique_prompt (cfg : DomainConfig) (instruction examples : Str)
    (scores : Option (List (Str × ℚ)) := none) : Except PyErr Str :=
  if cfg.critique_template.isEmpty then
    .ok (_generate_default_critique cfg instruction examples scores)
  else _format_custom_template cfg instruction examples scores

/-- The template-variable dictionary of `_format_refinement_template`. -/
def refinementVariables (cfg : DomainConfig) (instruction examples critique : Str) :
    List (Str × Str) :=
  [ ("instruction".toList, instruction),
    ("examples".toList, examples),
    ("critique".toList, critique),
    ("domain_type".toList, cfg.domain_type),
    ("domain_name".toList, cfg.domain_name),
    ("principles".toList, _format_list cfg.knowledge.principles),
    ("constraints".toList, _format_list cfg.knowledge.constraints),
    ("thinking_styles".toList, _format_list cfg.knowledge.thinking_styles) ]

/-- The `DomainCritiqueGenerator._format_refinement_template`. -/
def _format_refinement_template (cfg : DomainConfig)
    (instruction examples critique : Str) : Except PyErr Str :=
  let template := cfg.refinement_template
  let tvars := refinementVariables cfg instruction examples critique
  match pythonFormat template tvars with
  | .ok s => .ok s
  | .error (.keyError _) => .ok (fallbackReplace template tvars)
  | .error e => .error e

/-- The `DomainCritiqueGenerator._generate_default_refinement`. -/
def _generate_default_refinement (cfg : DomainConfig)
    (instruction _examples critique : Str) : Str :=
  let expert_context :=
    match cfg.knowledge.expert_personas with
    | persona :: _ =>
      "당신은 ".toList ++ persona.role ++ "로서, ".toList ++ persona.focus
        ++ "에 집중합니다.".toList
    | [] => []
  let header :=
    if expert_context.isEmpty then
      "당신은 ".toList ++ cfg.domain_name ++ " 분야의 전문가입니다.".toList
    else expert_context
  "## 역할\n".toList ++ header ++ "

## 현재 프롬프트 지시문:
".toList ++ instruction ++ "

## 비평 내용:
".toList ++ critique ++ "

## 도메인 핵심 원칙:
".toList ++ _format_list cfg.knowledge.principles ++ "

## 준수해야 할 제약조건:
".toList ++ _format_list cfg.knowledge.constraints ++ "

## 권장 사고방식:
".toList ++ _format_list cfg.knowledge.thinking_styles ++ "

## 개선 요청:
위의 비평과 도메인 지식을 바탕으로 프롬프트를 개선해주세요.

개선 시 다음 사항을 반드시 포함하세요:
1. 도메인 원칙이 명시적으로 반영되도록 수정
2. 제약조건 위반을 방지하는 가이드라인 추가
3. 전문가 사고방식을 유도하는 지시문 포함
4. 품질 기준을 충족하도록 구체화

개선된 프롬프트를 <IMPROVED_PROMPT></IMPROVED_PROMPT> 태그 안에 작성해주세요.
".toList

/-- The `DomainCritiqueGenerator.generate_refinement_prompt`. -/
def generate_refinement_prompt (cfg : DomainConfig)
    (instruction examples critique : Str) : Except PyErr Str :=
  if cfg.refinement_template.isEmpty then
    .ok (_generate_default_refinement cfg instruction examples critique)
  else _format_refinement_template cfg instruction examples critique

end DomainCritiqueGenerator

/-! ## Optimizer facade (`domain_aware_optimizer.py`) -/

namespace DomainAwarePromptOptimizer

/-- One per-case detail record of `validate_against_cases`. -/
structure CaseResult where
  question : Str
  category : Str
  score : ℚ
  response : Str
deriving Repr, DecidableEq

/-- The `DomainAwarePromptOptimizer._evaluate_case_response`: an empty
response short-circuits to 0.0 before the recall/penalty formula. -/
def _evaluate_case_response (response : Str) (case : CaseExample) : ℚ :=
  if response.isEmpty then 0
  else
    let response_lower := lowerStr response
    let expected_found :=
      (case.expected_elements.filter (fun e => inStr (lowerStr e) response_lower)).length
    let expected_score : ℚ :=
      if case.expected_elements.isEmpty then 1
      else (expected_found : ℚ) / (case.expected_elements.length : ℚ)
    let forbidden_found :=
      (case.forbidden_elements.filter (fun e => inStr (lowerStr e) response_lower)).length
    max 0 (expected_score - (forbidden_found : ℚ) * 0.25)

/-- The `response[:200] + "..." if len(response) > 200 else response`. -/
def truncResponse (r : Str) : Str :=
  if r.length > 200 then r.take 200 ++ "...".toList else r

/-- The `DomainAwarePromptOptimizer.validate_against_cases`.  The response
callback is modelled as `Str → Str → Option Str`; `none` models the
callback raising, which the `try/except` converts to the empty response
without aborting the sweep. -/
def validate_against_cases (cfg : DomainConfig)
    (generate_response_fn : Str → Str → Option Str) (prompt : Str) :
    ℚ × List CaseResult :=
  let all_cases := cfg.case_library.get_all_cases
  if all_cases.isEmpty then (1, [])
  else
    let acc := all_cases.foldl
      (fun (acc : ℚ × List CaseResult) case =>
        let response := (generate_response_fn prompt case.question).getD []
        let case_score := _evaluate_case_response response case
        (acc.1 + case_score,
         acc.2 ++ [{ question := case.question, category := case.category,
                     score := case_score, response := truncResponse response }]))
      (0, [])
    (acc.1 / (all_cases.length : ℚ), acc.2)

end DomainAwarePromptOptimizer

/-! ## Domain registry (`DomainRegistry`, `base_domain.py`)

The Python registry is class-level (process-wide) mutable state; it is
modelled as an explicit state value threaded through the operations.  The
evaluator "type" stored in the second mapping is left abstract here, so the state
is parametric in it. -/

/-- The class-level state of `DomainRegistry`: the two parallel
mappings. -/
structure DomainRegistry (α : Type) where
  _domains : List (Str × DomainConfig) := []
  _evaluators : List (Str × α) := []

namespace DomainRegistry

/-- The `DomainRegistry.register_domain`: always writes the config mapping;
writes the evaluator mapping only when an evaluator class is passed
(`if evaluator_class:` — `None` is falsy). -/
def register_domain {α : Type} (s : DomainRegistry α) (domain_config : DomainConfig)
    (evaluator_class : Option α := none) : DomainRegistry α :=
  { _domains := dictSet s._domains domain_config.domain_type domain_config
    _evaluators :=
      match evaluator_class with
      | some e => dictSet s._evaluators domain_config.domain_type e
      | none => s._evaluators }

/-- The `DomainRegistry.get_domain`. -/
def get_domain {α : Type} (s : DomainRegistry α) (domain_type : Str) :
    Option DomainConfig :=
  dictGet s._domains domain_type

/-- The `DomainRegistry.get_evaluator`. -/
def get_evaluator {α : Type} (s : DomainRegistry α) (domain_type : Str) : Option α :=
  dictGet s._evaluators domain_type

/-- The `DomainRegistry.list_domains`. -/
def list_domains {α : Type} (s : DomainRegistry α) : List Str :=
  dictKeys s._domains

/-- The `DomainRegistry.clear`. -/
def clear {α : Type} : DomainRegistry α := {}

end DomainRegistry

/-! ## Validators (`validators.py`) and auxiliary definitions for the claims -/

/-- The `KeywordValidator` validator (the `BaseValidator` name, description
and failure-message fields do not affect `validate` and are carried for
fidelity). -/
structure KeywordValidator where
  keywords : List Str
  must_include : Bool := true
  name : Str := "Keyword Check".toList
  description : Str := []
  failure_message : Str := "Keyword validation failed".toList
deriving Repr

/-- The `KeywordValidator.validate` method. -/
def KeywordValidator.validate (v : KeywordValidator) (content : Str) : Bool :=
  let content_lower := lowerStr content
  let found_keywords := v.keywords.filter (fun k => inStr (lowerStr k) content_lower)
  if v.must_include then found_keywords.length == v.keywords.length
  else found_keywords.length == 0

/-- The per-case score exactly as the specification's sentence states it
(expected-element recall minus a fixed 0.25 penalty per forbidden hit,
floored at 0, with an empty expected list counting as full recall) —
written from the spec's words for comparison with
`_evaluate_case_response`, which short-circuits empty responses. -/
def specCaseScore (response : Str) (case : CaseExample) : ℚ :=
  let response_lower := lowerStr response
  let frac : ℚ :=
    if case.expected_elements.isEmpty then 1
    else ((case.expected_elements.filter
            (fun e => inStr (lowerStr e) response_lower)).length : ℚ)
           / (case.expected_elements.length : ℚ)
  let forbidden_found :=
    (case.forbidden_elements.filter (fun e => inStr (lowerStr e) response_lower)).length
  max 0 (frac - 0.25 * (forbidden_found : ℚ))

/-- A medical domain configuration with no configured constraints. -/
def c1Config : DomainConfig :=
  { domain_type := "medical".toList, domain_name := "의료".toList }

/-- The example question of the specification (sudden loss of
consciousness). -/
def c8Question : Str := "갑자기 의식을 잃었어요".toList

/-- The example response of the specification (go to the emergency room
immediately, call 119). -/
def c8Response : Str := "응급실로 즉시 가세요, 119에 신고하세요".toList

/-- The aggregation rule exactly as the claim states it: the weighted
mean over non-`overall` entries (weights per `metricWeight`), with 0.0
when there are no entries or the total weight is zero.  Written from the
claim's words for comparison with `calculate_weighted_score`. -/
def claimWeightedMean (cfg : DomainConfig) (scores : List (Str × ℚ)) : ℚ :=
  let entries := scores.filter fun p => p.1 ≠ "overall".toList
  let tw := (entries.map fun p => DomainEvaluator.metricWeight cfg p.1).sum
  let ws := (entries.map fun p => p.2 * DomainEvaluator.metricWeight cfg p.1).sum
  if entries.isEmpty ∨ tw = 0 then 0 else ws / tw

/-- The aggregation rule as amended: 0.0 also when the total weight is
negative (not only zero). -/
def amendedWeightedMean (cfg : DomainConfig) (scores : List (Str × ℚ)) : ℚ :=
  let entries := scores.filter fun p => p.1 ≠ "overall".toList
  let tw := (entries.map fun p => DomainEvaluator.metricWeight cfg p.1).sum
  let ws := (entries.map fun p => p.2 * DomainEvaluator.metricWeight cfg p.1).sum
  if entries.isEmpty ∨ tw ≤ 0 then 0 else ws / tw

/-- A configuration whose single quality criterion has weight −1. -/
def c3Config : DomainConfig :=
  { domain_type := "d".toList, domain_name := "d".toList,
    knowledge := { quality_criteria := [ { name := "c".toList, weight := -1 } ] } }

/-- A configuration with a negative-weight criterion driving `overall`
out of `[0,1]`. -/
def c2Config : DomainConfig :=
  { domain_type := "d".toList, domain_name := "d".toList,
    knowledge := { quality_criteria := [ { name := "c".toList, weight := -0.4 } ] } }

/-- Brace-structure parser mirroring `pyFormatGo`: returns the raw field
texts when the template's braces are well-formed, `none` otherwise. -/
def fieldsGo : Option Str → Str → Option (List Str)
  | none, [] => some []
  | none, c :: cs =>
    if c = braceL then
      match cs with
      | [] => none
      | c2 :: cs2 =>
        if c2 = braceL then fieldsGo none cs2
        else fieldsGo (some []) (c2 :: cs2)
    else if c = braceR then
      match cs with
      | [] => none
      | c2 :: cs2 =>
        if c2 = braceR then fieldsGo none cs2
        else none
    else fieldsGo none cs
  | some _, [] => none
  | some acc, c :: cs =>
    if c = braceR then (fieldsGo none cs).map (fun fs => acc.reverse :: fs)
    else if c = braceL then none
    else fieldsGo (some (c :: acc)) cs

/-- The replacement fields of a template with well-formed braces. -/
def parseFields (t : Str) : Option (List Str) := fieldsGo none t

/-- A replacement field that is a plain name: non-empty, not positional
(not all digits), and free of attribute/index access, conversion and
format-spec markers. -/
def plainNamedField (f : Str) : Bool :=
  !f.isEmpty && !(f.all Char.isDigit)
    && f.all (fun c => c ≠ '.' && c ≠ '[' && c ≠ '!' && c ≠ ':')

/-- A configuration whose critique template has an unterminated brace and
whose refinement template has a positional field. -/
def c5Config : DomainConfig :=
  { domain_type := "d".toList, domain_name := "d".toList,
    critique_template := [braceL],
    refinement_template := [braceL, '0', braceR] }

/-- A configuration with a well-formed single-field critique template. -/
def c5WitnessConfig : DomainConfig :=
  { domain_type := "d".toList, domain_name := "d".toList,
    critique_template := braceL :: ("instruction".toList ++ [braceR]) }

/-! ## Helper lemmas -/

/-- The substring test `inStr` is exactly the infix relation. -/
theorem inStr_iff_occurs (pat hay : Str) : inStr pat hay = true ↔ pat <:+: hay := by
  constructor
  · intro h
    obtain ⟨t, ht, hp⟩ := List.any_eq_true.mp h
    obtain ⟨s, rfl⟩ := (List.mem_tails t hay).mp ht
    obtain ⟨r, rfl⟩ := List.isPrefixOf_iff_prefix.mp hp
    exact ⟨s, r, by simp⟩
  · intro h
    obtain ⟨s, t, rfl⟩ := h
    refine List.any_eq_true.mpr ⟨pat ++ t, ?_, ?_⟩
    · exact (List.mem_tails _ _).mpr ⟨s, by simp⟩
    · exact List.isPrefixOf_iff_prefix.mpr ⟨t, rfl⟩

/-- Updating a present key rewrites the first matching entry in place. -/
theorem find?_map_keep {β : Type} (d : List (Str × β)) (k : Str) (v : β) :
    ((d.map fun p => if p.1 == k then (p.1, v) else p).find? fun p => p.1 == k)
      = (d.find? fun p => p.1 == k).map fun p => (p.1, v) := by
  rw [List.find?_map]
  have hcomp : ((fun p : Str × β => p.1 == k) ∘ fun p => if p.1 == k then (p.1, v) else p)
      = fun p : Str × β => p.1 == k := by
    funext p
    by_cases h : p.1 = k <;> simp [h]
  rw [hcomp]
  cases hf : d.find? (fun p => p.1 == k) with
  | none => simp
  | some y =>
    have hy : (y.1 == k) = true := by simpa using List.find?_some hf
    simp [hy, beq_iff_eq.mp hy]

/-- Reading `dictGet` after `dictSet` at the same key yields the new
value. -/
theorem dictGet_dictSet_self {β : Type} (d : List (Str × β)) (k : Str) (v : β) :
    dictGet (dictSet d k v) k = some v := by
  unfold dictGet dictSet
  by_cases h : d.any fun p => p.1 == k
  · have hsome : ((d.find? fun p => p.1 == k)).isSome := by
      rw [List.find?_isSome]
      obtain ⟨x, hx, hpx⟩ := List.any_eq_true.mp h
      exact ⟨x, hx, hpx⟩
    obtain ⟨y, hy⟩ := Option.isSome_iff_exists.mp hsome
    rw [if_pos h, find?_map_keep, hy]
    simp
  · have hnone : (d.find? fun p => p.1 == k) = none := by
      rw [List.find?_eq_none]
      intro x hx
      exact fun hpx => h (List.any_eq_true.mpr ⟨x, hx, hpx⟩)
    rw [if_neg h, List.find?_append, hnone]
    simp [List.find?_cons]

/-- A key is absent from a dictionary iff `dictGet` returns `none`. -/
theorem dictGet_eq_none_iff {β : Type} (d : List (Str × β)) (k : Str) :
    dictGet d k = none ↔ k ∉ dictKeys d := by
  simp only [dictGet, Option.map_eq_none', List.find?_eq_none, dictKeys, List.mem_map]
  constructor
  · rintro h ⟨p, hp, rfl⟩
    exact h p hp (beq_iff_eq.mpr rfl)
  · intro h p hp hpk
    exact h ⟨p, hp, (beq_iff_eq.mp hpk)⟩

/-- Writing with `dictSet` preserves a predicate holding of every stored
value. -/
theorem dictSet_forall {β : Type} (P : β → Prop) (d : List (Str × β)) (k : Str) (v : β)
    (hd : ∀ p ∈ d, P p.2) (hv : P v) : ∀ p ∈ dictSet d k v, P p.2 := by
  unfold dictSet
  by_cases h : d.any fun p => p.1 == k
  · rw [if_pos h]
    simp only [List.mem_map]
    rintro p ⟨q, hq, rfl⟩
    by_cases hk : q.1 = k
    · simpa [hk] using hv
    · simpa [hk] using hd q hq
  · rw [if_neg h]
    simp only [List.mem_append, List.mem_singleton]
    rintro p (hp | rfl)
    · exact hd p hp
    · exact hv

/-- The mean of a non-empty list of rationals in `[0,1]` is in `[0,1]`. -/
theorem mean_bounds (l : List ℚ) (hne : l ≠ []) (h : ∀ x ∈ l, 0 ≤ x ∧ x ≤ 1) :
    0 ≤ l.sum / (l.length : ℚ) ∧ l.sum / (l.length : ℚ) ≤ 1 := by
  have hlen : 0 < (l.length : ℚ) := by
    have := List.length_pos.mpr hne
    exact_mod_cast this
  constructor
  · exact div_nonneg (List.sum_nonneg fun x hx => (h x hx).1) hlen.le
  · rw [div_le_one hlen]
    calc l.sum ≤ l.length • (1 : ℚ) := List.sum_le_card_nsmul l 1 fun x hx => (h x hx).2
    _ = (l.length : ℚ) := by simp [nsmul_eq_mul]

/-! ## Validators (`validators.py`) -/

/-! ## Claim C7 -/

/-- C7: `KeywordValidator` with `must_include=True` validates a text iff
every keyword occurs case-insensitively as a substring of it, and with
`must_include=False` iff no keyword does. -/
theorem C7_keyword_validator (K : List Str) (t : Str) :
    (KeywordValidator.validate { keywords := K, must_include := true } t = true
       ↔ ∀ k ∈ K, lowerStr k <:+: lowerStr t)
    ∧ (KeywordValidator.validate { keywords := K, must_include := false } t = true
       ↔ ∀ k ∈ K, ¬ lowerStr k <:+: lowerStr t) := by
  have hvalT : KeywordValidator.validate { keywords := K, must_include := true } t
      = ((K.filter fun k => inStr (lowerStr k) (lowerStr t)).length == K.length) := rfl
  have hvalF : KeywordValidator.validate { keywords := K, must_include := false } t
      = ((K.filter fun k => inStr (lowerStr k) (lowerStr t)).length == 0) := rfl
  constructor
  · rw [hvalT]
    simp only [beq_iff_eq]
    constructor
    · intro h k hk
      have hall := List.filter_eq_self.mp
        ((List.filter_sublist (l := K)
          (p := fun k => inStr (lowerStr k) (lowerStr t))).eq_of_length h)
      exact (inStr_iff_occurs _ _).mp (hall k hk)
    · intro h
      rw [List.filter_eq_self.mpr fun k hk => (inStr_iff_occurs _ _).mpr (h k hk)]
  · rw [hvalF]
    simp only [beq_iff_eq, List.length_eq_zero, List.filter_eq_nil_iff]
    constructor
    · intro h k hk hin
      exact h k hk ((inStr_iff_occurs _ _).mpr hin)
    · intro h k hk hin
      exact h k hk ((inStr_iff_occurs _ _).mp hin)

/-! ## Claim C10 -/

/-- C10: in the facade path an empty response always scores exactly 0,
even for a case with no expected elements — where the recall/penalty
formula itself (second conjunct, at such a case) would yield 1. -/
theorem C10_empty_response_zero :
    (∀ case : CaseExample, DomainAwarePromptOptimizer._evaluate_case_response [] case = 0)
    ∧ specCaseScore [] { question := [] } = 1 := by
  constructor
  · intro case
    simp [DomainAwarePromptOptimizer._evaluate_case_response]
  · simp [specCaseScore]

/-! ## Claim C1 -/

/-- With no configured constraints the medical `check_constraints` value
depends only on the dangerous-pattern matches. -/
theorem med_check_constraints_empty (cfg : DomainConfig) (r : Str)
    (h : cfg.knowledge.constraints = []) :
    MedicalDomainEvaluator.check_constraints cfg r
      = max 0 (1 - (MedicalDomainEvaluator.dangerousCount r : ℚ) / 7) := by
  unfold MedicalDomainEvaluator.check_constraints
  rw [h]
  norm_num [MedicalDomainEvaluator.DANGEROUS_PATTERNS]

/-- C1 counterexample: with an empty constraint list, the medical
evaluator's `check_constraints` is not 1.0 — the seven dangerous-pattern
regexes stay in the denominator, and a response matching one of them
scores 6/7. -/
theorem C1_counterexample :
    c1Config.knowledge.constraints = []
    ∧ MedicalDomainEvaluator.check_constraints c1Config "반드시 이 약을 복용하세요".toList
        = 6 / 7 := by
  refine ⟨rfl, ?_⟩
  rw [med_check_constraints_empty c1Config _ rfl]
  have hdc : MedicalDomainEvaluator.dangerousCount "반드시 이 약을 복용하세요".toList = 1 := by
    decide
  rw [hdc]
  norm_num

/-- C1 (amended): with an empty constraint list, the base evaluator's
`check_constraints` is 1.0; the medical override instead returns
`max 0 (1 − m/7)` where `m` counts matched dangerous patterns, which
equals 1.0 exactly when no dangerous pattern matches the response. -/
theorem C1_empty_constraints (cfg : DomainConfig) (r : Str)
    (h : cfg.knowledge.constraints = []) :
    DomainEvaluator.check_constraints cfg r = 1
    ∧ MedicalDomainEvaluator.check_constraints cfg r
        = max 0 (1 - (MedicalDomainEvaluator.dangerousCount r : ℚ) / 7)
    ∧ (MedicalDomainEvaluator.check_constraints cfg r = 1
        ↔ MedicalDomainEvaluator.dangerousCount r = 0) := by
  have h2 := med_check_constraints_empty cfg r h
  refine ⟨?_, h2, ?_⟩
  · unfold DomainEvaluator.check_constraints
    simp [h]
  · rw [h2]
    constructor
    · intro he
      by_contra hne
      have h1 : 1 ≤ (MedicalDomainEvaluator.dangerousCount r : ℚ) := by
        have := Nat.one_le_iff_ne_zero.mpr hne
        exact_mod_cast this
    
      have hle : max 0 (1 - (MedicalDomainEvaluator.dangerousCount r : ℚ) / 7) ≤ 6 / 7 := by
        apply max_le
        · norm_num
        · linarith
      rw [he] at hle
      norm_num at hle
    · intro h0
      rw [h0]
      norm_num

/-- C1 witness: the amended statement instantiated at a configuration
with no constraints and a response free of dangerous phrasing. -/
theorem C1_empty_constraints_witness :
    c1Config.knowledge.constraints = []
    ∧ (DomainEvaluator.check_constraints c1Config "전문의와 상담하세요".toList = 1
       ∧ MedicalDomainEvaluator.check_constraints c1Config "전문의와 상담하세요".toList
           = max 0 (1 - (MedicalDomainEvaluator.dangerousCount "전문의와 상담하세요".toList : ℚ) / 7)
       ∧ (MedicalDomainEvaluator.check_constraints c1Config "전문의와 상담하세요".toList = 1
           ↔ MedicalDomainEvaluator.dangerousCount "전문의와 상담하세요".toList = 0)) :=
  ⟨rfl, C1_empty_constraints c1Config "전문의와 상담하세요".toList rfl⟩

/-! ## Claim C6 -/

/-- C6 counterexample: registering a second config for the same domain
type with no evaluator does not overwrite the evaluator mapping — the
previously registered evaluator is still returned, not the passed
`None`. -/
theorem C6_counterexample :
    DomainRegistry.get_evaluator
      (DomainRegistry.register_domain
        (DomainRegistry.register_domain (DomainRegistry.clear : DomainRegistry ℕ)
          { domain_type := "d".toList, domain_name := "n1".toList } (some 7))
        { domain_type := "d".toList, domain_name := "n2".toList } none)
      "d".toList = some 7
    ∧ some 7 ≠ (none : Option ℕ) := by
  constructor
  · decide
  · decide

/-- C6 (amended): after `register_domain(c, e)`, `get_domain` on
`c.domain_type` returns `c` (last write wins for the config map);
`get_evaluator` returns `e` when an evaluator was passed and is otherwise
left unchanged; lookups of unregistered keys return the absent marker;
and after `clear()` the listing is empty. -/
theorem C6_registry (α : Type) (s : DomainRegistry α) (c : DomainConfig) (ev : Option α) :
    DomainRegistry.get_domain (DomainRegistry.register_domain s c ev) c.domain_type = some c
    ∧ DomainRegistry.get_evaluator (DomainRegistry.register_domain s c ev) c.domain_type
        = (match ev with
           | some e => some e
           | none => DomainRegistry.get_evaluator s c.domain_type)
    ∧ (∀ t, DomainRegistry.get_domain s t = none ↔ t ∉ DomainRegistry.list_domains s)
    ∧ (∀ t, DomainRegistry.get_evaluator s t = none ↔ t ∉ dictKeys s._evaluators)
    ∧ DomainRegistry.list_domains (DomainRegistry.clear : DomainRegistry α) = [] := by
  refine ⟨?_, ?_, ?_, ?_, rfl⟩
  · exact dictGet_dictSet_self _ _ _
  · cases ev with
    | some e => exact dictGet_dictSet_self _ _ _
    | none => rfl
  · intro t
    exact dictGet_eq_none_iff _ _
  · intro t
    exact dictGet_eq_none_iff _ _

/-! ## Claim C8 -/

/-- C8: a non-emergency question scores 1.0; an emergency question scores
the sum of 0.5 (emergency contact/venue), 0.3 (urgency marker) and 0.2
(marker within the first 100 characters), hence 1.0 exactly when all
three hold; and the specification's example scores at least 0.8. -/
theorem C8_emergency_handling (response question : Str) :
    (MedicalDomainEvaluator.emergencyQuestion question = false →
      MedicalDomainEvaluator.evaluate_emergency_handling response question = 1)
    ∧ (MedicalDomainEvaluator.emergencyQuestion question = true →
      MedicalDomainEvaluator.evaluate_emergency_handling response question
        = (if MedicalDomainEvaluator.mentionsEmergencyService response then (0.5 : ℚ) else 0)
            + (if MedicalDomainEvaluator.signalsUrgency response then (0.3 : ℚ) else 0)
            + (if MedicalDomainEvaluator.earlyUrgency response then (0.2 : ℚ) else 0))
    ∧ (MedicalDomainEvaluator.emergencyQuestion question = true →
      (MedicalDomainEvaluator.evaluate_emergency_handling response question = 1
        ↔ MedicalDomainEvaluator.mentionsEmergencyService response = true
            ∧ MedicalDomainEvaluator.signalsUrgency response = true
            ∧ MedicalDomainEvaluator.earlyUrgency response = true))
    ∧ (0.8 : ℚ)
        ≤ MedicalDomainEvaluator.evaluate_emergency_handling c8Response c8Question := by
  refine ⟨?_, ?_, ?_, ?_⟩
  · intro hq
    simp [MedicalDomainEvaluator.evaluate_emergency_handling, hq]
  · intro hq
    simp [MedicalDomainEvaluator.evaluate_emergency_handling, hq]
  · intro hq
    simp only [MedicalDomainEvaluator.evaluate_emergency_handling, hq, Bool.not_true,
      Bool.false_eq_true, if_false]
    rcases hA : MedicalDomainEvaluator.mentionsEmergencyService response <;>
      rcases hB : MedicalDomainEvaluator.signalsUrgency response <;>
      rcases hC : MedicalDomainEvaluator.earlyUrgency response <;>
      norm_num
  · unfold MedicalDomainEvaluator.evaluate_emergency_handling
    rw [if_neg (by decide)]
    rw [if_pos (by decide), if_pos (by decide), if_pos (by decide)]
    norm_num

/-- C8 witness: the emergency-question formula instantiated at the
specification's example. -/
theorem C8_emergency_handling_witness :
    MedicalDomainEvaluator.emergencyQuestion c8Question = true
    ∧ MedicalDomainEvaluator.evaluate_emergency_handling c8Response c8Question
        = (if MedicalDomainEvaluator.mentionsEmergencyService c8Response then (0.5 : ℚ) else 0)
            + (if MedicalDomainEvaluator.signalsUrgency c8Response then (0.3 : ℚ) else 0)
            + (if MedicalDomainEvaluator.earlyUrgency c8Response then (0.2 : ℚ) else 0) :=
  ⟨by decide, (C8_emergency_handling c8Response c8Question).2.1 (by decide)⟩

/-! ## Claim C4 -/

/-- Unrolling the case sweep of `validate_against_cases`: the fold is a
map (one callback invocation and one record per case) plus a sum. -/
theorem case_sweep_foldl (fn : Str → Str → Option Str) (prompt : Str)
    (cs : List CaseExample) (a : ℚ) (l : List DomainAwarePromptOptimizer.CaseResult) :
    cs.foldl
      (fun (acc : ℚ × List DomainAwarePromptOptimizer.CaseResult) case =>
        let response := (fn prompt case.question).getD []
        let case_score := DomainAwarePromptOptimizer._evaluate_case_response response case
        (acc.1 + case_score,
         acc.2 ++ [{ question := case.question, category := case.category,
                     score := case_score,
                     response := DomainAwarePromptOptimizer.truncResponse response }]))
      (a, l)
      = (a + (cs.map fun case =>
            DomainAwarePromptOptimizer._evaluate_case_response
              ((fn prompt case.question).getD []) case).sum,
         l ++ cs.map fun case =>
           { question := case.question, category := case.category,
             score := DomainAwarePromptOptimizer._evaluate_case_response
               ((fn prompt case.question).getD []) case,
             response := DomainAwarePromptOptimizer.truncResponse
               ((fn prompt case.question).getD []) }) := by
  induction cs generalizing a l with
  | nil => simp
  | cons c cs ih =>
    simp only [List.foldl_cons, List.map_cons, List.sum_cons, ih, Prod.mk.injEq]
    constructor
    · ring
    · simp

/-- C4 (amended): `validate_against_cases` invokes the callback once per
case of the full library; a raising callback yields the empty response
for that case and the sweep continues; the aggregate is the mean of the
per-case scores with one detail record per case (response truncated to
200 characters); an empty library yields `(1.0, [])`.  A case whose
response is non-empty is scored by the recall-minus-0.25-per-forbidden-hit
formula; an empty response (including one substituted for a raising
callback) scores 0.0 rather than by that formula. -/
theorem C4_validate_against_cases (cfg : DomainConfig)
    (fn : Str → Str → Option Str) (prompt : Str) :
    (DomainAwarePromptOptimizer.validate_against_cases cfg fn prompt
      = if cfg.case_library.get_all_cases.isEmpty then (1, [])
        else
          (((cfg.case_library.get_all_cases.map fun case =>
               DomainAwarePromptOptimizer._evaluate_case_response
                 ((fn prompt case.question).getD []) case).sum)
             / (cfg.case_library.get_all_cases.length : ℚ),
           cfg.case_library.get_all_cases.map fun case =>
             { question := case.question, category := case.category,
               score := DomainAwarePromptOptimizer._evaluate_case_response
                 ((fn prompt case.question).getD []) case,
               response := DomainAwarePromptOptimizer.truncResponse
                 ((fn prompt case.question).getD []) }))
    ∧ (∀ (resp : Str) (case : CaseExample), resp ≠ [] →
        DomainAwarePromptOptimizer._evaluate_case_response resp case
          = specCaseScore resp case) := by
  constructor
  · unfold DomainAwarePromptOptimizer.validate_against_cases
    by_cases h : cfg.case_library.get_all_cases.isEmpty
    · rw [if_pos h, if_pos h]
    · rw [if_neg h, if_neg h]
      rw [case_sweep_foldl]
      simp
  · intro resp case hne
    unfold DomainAwarePromptOptimizer._evaluate_case_response specCaseScore
    rw [if_neg (by simpa using hne)]
    simp [mul_comm]

/-- C4 witness: the non-empty-response scoring formula instantiated at a
concrete response and case. -/
theorem C4_validate_against_cases_witness :
    ("a c".toList ≠ ([] : Str))
    ∧ DomainAwarePromptOptimizer._evaluate_case_response "a c".toList
        { question := "q".toList, expected_elements := ["a".toList, "b".toList],
          forbidden_elements := ["c".toList] }
        = specCaseScore "a c".toList
            { question := "q".toList, expected_elements := ["a".toList, "b".toList],
              forbidden_elements := ["c".toList] } :=
  ⟨by decide,
   (C4_validate_against_cases c1Config (fun _ _ => none) []).2 "a c".toList
     { question := "q".toList, expected_elements := ["a".toList, "b".toList],
       forbidden_elements := ["c".toList] } (by decide)⟩

/-- C4 counterexample: for a library whose single case has no expected
and no forbidden elements and a callback that raises, the sweep scores
the case 0.0 (and the aggregate is 0.0), while the claimed
recall-minus-penalty formula yields 1.0 for that case. -/
theorem C4_counterexample :
    (DomainAwarePromptOptimizer.validate_against_cases
        { domain_type := "d".toList, domain_name := "d".toList,
          case_library := { critical_cases := [ { question := "q".toList } ] } }
        (fun _ _ => none) "p".toList).1 = 0
    ∧ specCaseScore [] { question := "q".toList } = 1 := by
  constructor
  · simp [DomainAwarePromptOptimizer.validate_against_cases, CaseLibrary.get_all_cases,
      DomainAwarePromptOptimizer._evaluate_case_response]
  · simp [specCaseScore]

/-! ## Claim C9 -/

/-- Decoding a list of encoded strings is the identity. -/
theorem filterMap_str_map (l : List Str) :
    (l.map PyVal.str).filterMap
        (fun v => match v with | PyVal.str s => some s | _ => none) = l := by
  induction l with
  | nil => rfl
  | cons s l ih => simp [List.filterMap_cons, ih]

/-- Decoding an encoded quality criterion resets only its
`evaluation_prompt`. -/
theorem filterMap_qc_map (l : List QualityCriterion) :
    ((l.map fun qc => PyVal.dict
        [ ("name".toList, .str qc.name),
          ("weight".toList, .num qc.weight),
          ("description".toList, .str qc.description) ]).filterMap qcFromPy)
      = l.map fun qc => { qc with evaluation_prompt := [] } := by
  induction l with
  | nil => rfl
  | cons q l ih =>
    have hq : qcFromPy (PyVal.dict
        [ ("name".toList, .str q.name),
          ("weight".toList, .num q.weight),
          ("description".toList, .str q.description) ])
        = some { q with evaluation_prompt := [] } := rfl
    rw [List.map_cons, List.filterMap_cons_some hq, ih, List.map_cons]

/-- Decoding an encoded expert persona resets only its
`thinking_approach`. -/
theorem filterMap_ep_map (l : List ExpertPersona) :
    ((l.map fun ep => PyVal.dict
        [ ("role".toList, .str ep.role),
          ("focus".toList, .str ep.focus),
          ("background".toList, .str ep.background) ]).filterMap epFromPy)
      = l.map fun ep => { ep with thinking_approach := [] } := by
  induction l with
  | nil => rfl
  | cons e l ih =>
    have he : epFromPy (PyVal.dict
        [ ("role".toList, .str e.role),
          ("focus".toList, .str e.focus),
          ("background".toList, .str e.background) ])
        = some { e with thinking_approach := [] } := rfl
    rw [List.map_cons, List.filterMap_cons_some he, ih, List.map_cons]

/-- Decoding an encoded terminology mapping is the identity. -/
theorem filterMap_term_map (l : List (Str × Str)) :
    ((l.map fun p => (p.1, PyVal.str p.2)).filterMap
        (fun p => match p.2 with | PyVal.str s => some (p.1, s) | _ => none)) = l := by
  induction l with
  | nil => rfl
  | cons p l ih =>
    have hstep : List.filterMap
        (fun p : Str × PyVal =>
          match p.2 with | PyVal.str s => some (p.1, s) | _ => none)
        ((p.1, PyVal.str p.2) :: List.map (fun p => (p.1, PyVal.str p.2)) l)
        = p :: List.filterMap
            (fun p : Str × PyVal =>
              match p.2 with | PyVal.str s => some (p.1, s) | _ => none)
            (List.map (fun p => (p.1, PyVal.str p.2)) l) := rfl
    rw [List.map_cons, hstep, ih]

/-- C9: `to_dict` emits no `case_library` key, so
`from_dict (to_dict c)` preserves everything serialized — identity,
templates, metadata and the knowledge lists up to resetting each
criterion's `evaluation_prompt` and each persona's `thinking_approach` —
but always yields an empty case library. -/
theorem C9_round_trip (c : DomainConfig) :
    dictGet c.to_dict "case_library".toList = none
    ∧ DomainConfig.from_dict c.to_dict
        = { domain_type := c.domain_type
            domain_name := c.domain_name
            description := c.description
            knowledge := { c.knowledge with
              quality_criteria := c.knowledge.quality_criteria.map
                (fun qc => { qc with evaluation_prompt := [] })
              expert_personas := c.knowledge.expert_personas.map
                (fun ep => { ep with thinking_approach := [] }) }
            critique_template := c.critique_template
            refinement_template := c.refinement_template
            case_library := {}
            metadata := c.metadata } := by
  constructor
  · rfl
  · unfold DomainConfig.from_dict
    simp only [DomainConfig.mk.injEq]
    refine ⟨rfl, rfl, rfl, ?_, rfl, rfl, rfl, rfl⟩
    show DomainKnowledge.from_dict _ = _
    unfold DomainKnowledge.from_dict
    simp only [DomainKnowledge.mk.injEq]
    refine ⟨?_, ?_, ?_, ?_, ?_, ?_, ?_, ?_⟩
    · exact filterMap_str_map c.knowledge.principles
    · exact filterMap_str_map c.knowledge.constraints
    · exact filterMap_qc_map c.knowledge.quality_criteria
    · exact filterMap_str_map c.knowledge.thinking_styles
    · exact filterMap_ep_map c.knowledge.expert_personas
    · exact filterMap_term_map c.knowledge.terminology
    · exact filterMap_str_map c.knowledge.patterns
    · exact filterMap_str_map c.knowledge.anti_patterns

/-! ## Claim C3 -/

/-- Unrolling the accumulator loop of `calculate_weighted_score` into
sums over the non-`overall` entries. -/
theorem cws_foldl_sums (cfg : DomainConfig) (scores : List (Str × ℚ)) (a b : ℚ) :
    scores.foldl
      (fun (acc : ℚ × ℚ) p =>
        if p.1 = "overall".toList then acc
        else (acc.1 + p.2 * DomainEvaluator.metricWeight cfg p.1,
              acc.2 + DomainEvaluator.metricWeight cfg p.1))
      (a, b)
      = (a + ((scores.filter fun p => p.1 ≠ "overall".toList).map
            (fun p => p.2 * DomainEvaluator.metricWeight cfg p.1)).sum,
         b + ((scores.filter fun p => p.1 ≠ "overall".toList).map
            (fun p => DomainEvaluator.metricWeight cfg p.1)).sum) := by
  induction scores generalizing a b with
  | nil => simp
  | cons p l ih =>
    by_cases h : p.1 = "overall".toList
    · have hf : List.filter (fun q => decide (q.1 ≠ "overall".toList)) (p :: l)
          = List.filter (fun q => decide (q.1 ≠ "overall".toList)) l := by
        rw [List.filter_cons, if_neg]
        simpa using h
      rw [List.foldl_cons, if_pos h, ih, hf]
    · have hf : List.filter (fun q => decide (q.1 ≠ "overall".toList)) (p :: l)
          = p :: List.filter (fun q => decide (q.1 ≠ "overall".toList)) l := by
        rw [List.filter_cons, if_pos]
        simpa using h
      rw [List.foldl_cons, if_neg h, ih, hf]
      simp only [List.map_cons, List.sum_cons, Prod.mk.injEq]
      constructor <;> ring

/-- C3 counterexample: with a (legal, unvalidated) negative criterion
weight the total weight is negative, where the code returns 0.0 but the
claimed weighted mean is 1/2. -/
theorem C3_counterexample :
    DomainEvaluator.calculate_weighted_score c3Config [("c".toList, 1/2)] = 0
    ∧ claimWeightedMean c3Config [("c".toList, 1/2)] = 1/2 := by
  have hw : DomainEvaluator.metricWeight c3Config ['c'] = -1 := rfl
  have hc : ('c' = 'o') = False := eq_false (by decide)
  constructor
  · norm_num [DomainEvaluator.calculate_weighted_score, cws_foldl_sums, hw, hc,
      List.filter_cons]
  · norm_num [claimWeightedMean, List.filter_cons, hw, hc]

/-- C3 (amended): `calculate_weighted_score` equals the claimed weighted
mean, except that a zero result is returned whenever the total weight is
zero *or negative* (possible only through negative criterion weights). -/
theorem C3_weighted_score (cfg : DomainConfig) (S : List (Str × ℚ)) :
    DomainEvaluator.calculate_weighted_score cfg S = amendedWeightedMean cfg S := by
  unfold DomainEvaluator.calculate_weighted_score amendedWeightedMean
  by_cases hS : S.isEmpty
  · rw [if_pos hS]
    rw [List.isEmpty_iff.mp hS]
    simp
  · rw [if_neg hS, cws_foldl_sums]
    simp only [zero_add]
    by_cases htw : ((S.filter fun p => p.1 ≠ "overall".toList).map
        (fun p => DomainEvaluator.metricWeight cfg p.1)).sum > 0
    · rw [if_pos htw, if_neg]
      rintro (hemp | hle)
      · rw [List.isEmpty_iff.mp hemp] at htw
        simp at htw
      · exact absurd htw (not_lt.mpr hle)
    · rw [if_neg htw, if_pos]
      exact Or.inr (not_lt.mp htw)

/-! ## Claim C2 -/

/-- Medical `check_accuracy` is bounded in `[0,1]`. -/
theorem med_check_accuracy_bounds (r gt : Str) :
    0 ≤ MedicalDomainEvaluator.check_accuracy r gt
    ∧ MedicalDomainEvaluator.check_accuracy r gt ≤ 1 := by
  unfold MedicalDomainEvaluator.check_accuracy
  dsimp only
  split_ifs with h1 h2 h3
  · norm_num
  · norm_num
  · constructor
    · refine le_min (by norm_num) ?_
      positivity
    · exact min_le_left _ _
  · have hle : ((List.filter (fun w => decide (w ∈ (pySplitWs (lowerStr r)).dedup))
        (pySplitWs (lowerStr gt)).dedup).length : ℚ)
        ≤ ((pySplitWs (lowerStr gt)).dedup.length : ℚ) := by
      exact_mod_cast List.length_filter_le _ _
    have hpos : (0 : ℚ) < ((pySplitWs (lowerStr gt)).dedup.length : ℚ) := by
      have := Nat.pos_of_ne_zero h2
      exact_mod_cast this
    constructor
    · positivity
    · rw [div_le_one hpos]
      exact hle

/-- Medical `check_constraints` is bounded in `[0,1]`. -/
theorem med_check_constraints_bounds (cfg : DomainConfig) (r : Str) :
    0 ≤ MedicalDomainEvaluator.check_constraints cfg r
    ∧ MedicalDomainEvaluator.check_constraints cfg r ≤ 1 := by
  unfold MedicalDomainEvaluator.check_constraints
  dsimp only
  split_ifs with h
  · norm_num
  · constructor
    · exact le_max_left _ _
    · refine max_le (by norm_num) ?_
      have hnum : (0 : ℚ) ≤ ((MedicalDomainEvaluator.dangerousCount r
          + (List.filter
              (fun c => MedicalDomainEvaluator._violates_medical_constraint r c)
              cfg.knowledge.constraints).length : ℕ) : ℚ)
          / ((MedicalDomainEvaluator.DANGEROUS_PATTERNS.length
              + cfg.knowledge.constraints.length : ℕ) : ℚ) := by
        positivity
      linarith

/-- Medical `_check_default_medical_principles` is bounded in `[0,1]`. -/
theorem med_default_principles_bounds (r : Str) :
    0 ≤ MedicalDomainEvaluator._check_default_medical_principles r
    ∧ MedicalDomainEvaluator._check_default_medical_principles r ≤ 1 := by
  unfold MedicalDomainEvaluator._check_default_medical_principles
  dsimp only
  constructor
  · split_ifs <;> norm_num
  · exact min_le_left _ _

/-- Medical `check_principles` is bounded in `[0,1]`. -/
theorem med_check_principles_bounds (cfg : DomainConfig) (r : Str) :
    0 ≤ MedicalDomainEvaluator.check_principles cfg r
    ∧ MedicalDomainEvaluator.check_principles cfg r ≤ 1 := by
  unfold MedicalDomainEvaluator.check_principles
  dsimp only
  split_ifs with h1 h2
  · exact med_default_principles_bounds r
  · have hle : ((List.filter
        (fun p => MedicalDomainEvaluator._aligns_with_medical_principle r p)
        cfg.knowledge.principles).length : ℚ)
        ≤ (cfg.knowledge.principles.length : ℚ) := by
      exact_mod_cast List.length_filter_le _ _
    have hpos : (0 : ℚ) < (cfg.knowledge.principles.length : ℚ) := by
      exact_mod_cast h2
    constructor
    · positivity
    · rw [div_le_one hpos]
      exact hle
  · norm_num

/-- Medical `_evaluate_safety` is bounded in `[0,1]`. -/
theorem med_safety_bounds (r : Str) :
    0 ≤ MedicalDomainEvaluator._evaluate_safety r
    ∧ MedicalDomainEvaluator._evaluate_safety r ≤ 1 := by
  unfold MedicalDomainEvaluator._evaluate_safety
  dsimp only
  exact ⟨le_max_left _ _, max_le (by norm_num) (min_le_left _ _)⟩

/-- Medical `_evaluate_evidence_basis` is bounded in `[0,1]`. -/
theorem med_evidence_bounds (r : Str) :
    0 ≤ MedicalDomainEvaluator._evaluate_evidence_basis r
    ∧ MedicalDomainEvaluator._evaluate_evidence_basis r ≤ 1 := by
  unfold MedicalDomainEvaluator._evaluate_evidence_basis
  dsimp only
  refine ⟨le_min (by norm_num) ?_, min_le_left _ _⟩
  have h1 : (0 : ℚ) ≤ min 0.4 ((((List.filter
      (fun kw => inStr kw r) MedicalDomainEvaluator.EVIDENCE_KEYWORDS).length : ℚ)) * 0.1) := by
    refine le_min (by norm_num) ?_
    positivity
  have h2 : (0 : ℚ) ≤ min 0.3 ((((List.filter (fun kw => inStr kw r)
      [ "가능성".toList, "일반적으로".toList, "연구에 따르면".toList, "권고".toList ]).length : ℚ))
        * 0.1) := by
    refine le_min (by norm_num) ?_
    positivity
  linarith

/-- Medical `_evaluate_clarity` is bounded in `[0,1]`. -/
theorem med_clarity_bounds (r : Str) :
    0 ≤ MedicalDomainEvaluator._evaluate_clarity r
    ∧ MedicalDomainEvaluator._evaluate_clarity r ≤ 1 := by
  unfold MedicalDomainEvaluator._evaluate_clarity
  dsimp only
  exact ⟨le_min (by norm_num) (le_max_left _ _), min_le_left _ _⟩

/-- Medical `_evaluate_completeness` is bounded in `[0,1]`. -/
theorem med_completeness_bounds (r : Str) :
    0 ≤ MedicalDomainEvaluator._evaluate_completeness r
    ∧ MedicalDomainEvaluator._evaluate_completeness r ≤ 1 := by
  unfold MedicalDomainEvaluator._evaluate_completeness
  dsimp only
  refine ⟨le_min (by norm_num) ?_, min_le_left _ _⟩
  positivity

/-- Medical `_evaluate_empathy` is bounded in `[0,1]`. -/
theorem med_empathy_bounds (r : Str) :
    0 ≤ MedicalDomainEvaluator._evaluate_empathy r
    ∧ MedicalDomainEvaluator._evaluate_empathy r ≤ 1 := by
  unfold MedicalDomainEvaluator._evaluate_empathy
  dsimp only
  refine ⟨le_min (by norm_num) ?_, min_le_left _ _⟩
  have h1 : (0 : ℚ) ≤ min 0.4 ((((List.filter (fun kw => inStr kw r)
      [ "이해합니다".toList, "걱정되시".toList, "불안하시".toList, "힘드시".toList,
        "도움".toList, "함께".toList, "천천히".toList, "괜찮".toList ]).length : ℚ)) * 0.1) := by
    refine le_min (by norm_num) ?_
    positivity
  split_ifs <;> linarith

/-- Medical `evaluate_criterion` is bounded in `[0,1]`. -/
theorem med_evaluate_criterion_bounds (r : Str) (qc : QualityCriterion) :
    0 ≤ MedicalDomainEvaluator.evaluate_criterion r qc
    ∧ MedicalDomainEvaluator.evaluate_criterion r qc ≤ 1 := by
  unfold MedicalDomainEvaluator.evaluate_criterion
  dsimp only
  split_ifs
  · exact med_safety_bounds _
  · exact med_evidence_bounds _
  · exact med_clarity_bounds _
  · exact med_completeness_bounds _
  · exact med_empathy_bounds _
  · norm_num

/-- The shared `_evaluate_single_case` is bounded in `[0,1]`. -/
theorem single_case_bounds (r : Str) (case : CaseExample) :
    0 ≤ DomainEvaluator._evaluate_single_case r case
    ∧ DomainEvaluator._evaluate_single_case r case ≤ 1 := by
  unfold DomainEvaluator._evaluate_single_case
  dsimp only
  refine ⟨le_max_left _ _, max_le (by norm_num) ?_⟩
  have hexp : (if case.expected_elements.isEmpty then (1 : ℚ)
      else ((List.filter (fun e => inStr (lowerStr e) (lowerStr r))
              case.expected_elements).length : ℚ)
             / (case.expected_elements.length : ℚ)) ≤ 1 := by
    split_ifs with h
    · norm_num
    · have hpos : (0 : ℚ) < (case.expected_elements.length : ℚ) := by
        have : case.expected_elements ≠ [] := by simpa [List.isEmpty_iff] using h
        have := List.length_pos.mpr this
        exact_mod_cast this
      rw [div_le_one hpos]
      exact_mod_cast List.length_filter_le _ _
  have hpen : (0 : ℚ) ≤ (if case.forbidden_elements.isEmpty then (0 : ℚ)
      else ((List.filter (fun e => inStr (lowerStr e) (lowerStr r))
              case.forbidden_elements).length : ℚ)
             / (case.forbidden_elements.length : ℚ)) := by
    split_ifs with h
    · norm_num
    · positivity
  linarith

/-- The shared `evaluate_against_cases` only produces values in
`[0,1]`. -/
theorem eac_bounds (cfg : DomainConfig) (r q : Str) (v : ℚ)
    (h : DomainEvaluator.evaluate_against_cases cfg r q = some v) :
    0 ≤ v ∧ v ≤ 1 := by
  unfold DomainEvaluator.evaluate_against_cases at h
  dsimp only at h
  split_ifs at h with h1 h2
  rw [Option.some.injEq] at h
  subst h
  have hne : DomainEvaluator._find_matching_cases cfg q ≠ [] := by
    simpa [List.isEmpty_iff] using h2
  have hmapne : (DomainEvaluator._find_matching_cases cfg q).map
      (fun c => DomainEvaluator._evaluate_single_case r c) ≠ [] := by
    simpa using hne
  have := mean_bounds ((DomainEvaluator._find_matching_cases cfg q).map
      (fun c => DomainEvaluator._evaluate_single_case r c)) hmapne
    (by
      intro x hx
      obtain ⟨c, hc, rfl⟩ := List.mem_map.mp hx
      exact single_case_bounds r c)
  rwa [List.length_map] at this

/-- With nonnegative criterion weights every metric weight is
nonnegative. -/
theorem metricWeight_nonneg (cfg : DomainConfig)
    (hw : ∀ qc ∈ cfg.knowledge.quality_criteria, 0 ≤ qc.weight) (name : Str) :
    0 ≤ DomainEvaluator.metricWeight cfg name := by
  unfold DomainEvaluator.metricWeight
  cases hf : cfg.knowledge.quality_criteria.reverse.find? (fun qc => qc.name == name) with
  | none =>
    unfold DomainEvaluator.defaultWeight
    split_ifs <;> norm_num
  | some qc =>
    have hmem : qc ∈ cfg.knowledge.quality_criteria.reverse := List.mem_of_find?_eq_some hf
    exact hw qc (List.mem_reverse.mp hmem)

/-- With entries in `[0,1]` and nonnegative weights,
`calculate_weighted_score` is in `[0,1]`. -/
theorem cws_bounds (cfg : DomainConfig) (S : List (Str × ℚ))
    (hvals : ∀ p ∈ S, 0 ≤ p.2 ∧ p.2 ≤ 1)
    (hw : ∀ qc ∈ cfg.knowledge.quality_criteria, 0 ≤ qc.weight) :
    0 ≤ DomainEvaluator.calculate_weighted_score cfg S
    ∧ DomainEvaluator.calculate_weighted_score cfg S ≤ 1 := by
  unfold DomainEvaluator.calculate_weighted_score
  dsimp only
  by_cases h1 : S.isEmpty
  · rw [if_pos h1]
    norm_num
  · rw [if_neg h1, cws_foldl_sums]
    simp only [zero_add]
    set entries := S.filter fun p => p.1 ≠ "overall".toList with hentries
    have hmem : ∀ p ∈ entries, 0 ≤ p.2 ∧ p.2 ≤ 1 := by
      intro p hp
      exact hvals p (List.mem_of_mem_filter hp)
    have hws0 : 0 ≤ (entries.map fun p => p.2 * DomainEvaluator.metricWeight cfg p.1).sum := by
      apply List.sum_nonneg
      intro x hx
      obtain ⟨p, hp, rfl⟩ := List.mem_map.mp hx
      exact mul_nonneg (hmem p hp).1 (metricWeight_nonneg cfg hw p.1)
    have htw0 : 0 ≤ (entries.map fun p => DomainEvaluator.metricWeight cfg p.1).sum := by
      apply List.sum_nonneg
      intro x hx
      obtain ⟨p, hp, rfl⟩ := List.mem_map.mp hx
      exact metricWeight_nonneg cfg hw p.1
    have hwslestw : (entries.map fun p => p.2 * DomainEvaluator.metricWeight cfg p.1).sum
        ≤ (entries.map fun p => DomainEvaluator.metricWeight cfg p.1).sum := by
      apply List.sum_le_sum
      intro p hp
      calc p.2 * DomainEvaluator.metricWeight cfg p.1
          ≤ 1 * DomainEvaluator.metricWeight cfg p.1 :=
            mul_le_mul_of_nonneg_right (hmem p hp).2 (metricWeight_nonneg cfg hw p.1)
      _ = DomainEvaluator.metricWeight cfg p.1 := one_mul _
    by_cases h2 : (entries.map fun p => DomainEvaluator.metricWeight cfg p.1).sum > 0
    · rw [if_pos h2]
      exact ⟨div_nonneg hws0 (le_of_lt h2), (div_le_one h2).mpr hwslestw⟩
    · rw [if_neg h2]
      norm_num

/-- The criteria loop of `evaluate` preserves boundedness of the score
dictionary. -/
theorem criteria_fold_forall (r : Str) (l : List QualityCriterion)
    (d : List (Str × ℚ)) (hd : ∀ p ∈ d, 0 ≤ p.2 ∧ p.2 ≤ 1) :
    ∀ p ∈ l.foldl
        (fun acc qc => dictSet acc qc.name (MedicalDomainEvaluator.evaluate_criterion r qc)) d,
      0 ≤ p.2 ∧ p.2 ≤ 1 := by
  induction l generalizing d with
  | nil => exact hd
  | cons qc l ih =>
    rw [List.foldl_cons]
    exact ih _ (dictSet_forall (fun v => 0 ≤ v ∧ v ≤ 1) d qc.name _ hd (med_evaluate_criterion_bounds r qc))

/-- Every value of the pre-`overall` score dictionary is in `[0,1]`. -/
theorem scoresBeforeOverall_forall (cfg : DomainConfig) (r gt q : Str) :
    ∀ p ∈ MedicalDomainEvaluator.scoresBeforeOverall cfg r gt q, 0 ≤ p.2 ∧ p.2 ≤ 1 := by
  unfold MedicalDomainEvaluator.scoresBeforeOverall
  dsimp only
  have h1 : ∀ p ∈ (if gt.isEmpty then ([] : List (Str × ℚ))
      else dictSet [] "accuracy".toList (MedicalDomainEvaluator.check_accuracy r gt)),
      0 ≤ p.2 ∧ p.2 ≤ 1 := by
    split_ifs
    · intro p hp
      simp at hp
    · exact dictSet_forall (fun v => 0 ≤ v ∧ v ≤ 1) [] "accuracy".toList _ (by intro p hp; simp at hp) (med_check_accuracy_bounds r gt)
  have h2 := dictSet_forall (fun v => 0 ≤ v ∧ v ≤ 1) _ "constraint_compliance".toList _ h1 (med_check_constraints_bounds cfg r)
  have h3 := dictSet_forall (fun v => 0 ≤ v ∧ v ≤ 1) _ "principle_alignment".toList _ h2 (med_check_principles_bounds cfg r)
  have h4 := criteria_fold_forall r cfg.knowledge.quality_criteria _ h3
  cases heac : DomainEvaluator.evaluate_against_cases cfg r q with
  | none => exact h4
  | some cs =>
    exact dictSet_forall (fun v => 0 ≤ v ∧ v ≤ 1) _ "case_coverage".toList _ h4
      (eac_bounds cfg r q cs heac)

/-- C2 (amended): for any `DomainConfig` whose quality-criterion weights
are all nonnegative, the map returned by the medical `evaluate` always
contains the key `overall`, and every value in it lies in `[0,1]`. -/
theorem C2_evaluate_bounds (cfg : DomainConfig) (r gt q : Str)
    (hw : ∀ qc ∈ cfg.knowledge.quality_criteria, 0 ≤ qc.weight) :
    (dictGet (MedicalDomainEvaluator.evaluate cfg r gt q) "overall".toList).isSome
    ∧ ∀ p ∈ MedicalDomainEvaluator.evaluate cfg r gt q, 0 ≤ p.2 ∧ p.2 ≤ 1 := by
  have hsbo := scoresBeforeOverall_forall cfg r gt q
  have hcws := cws_bounds cfg (MedicalDomainEvaluator.scoresBeforeOverall cfg r gt q) hsbo hw
  constructor
  · rw [show MedicalDomainEvaluator.evaluate cfg r gt q
        = dictSet (MedicalDomainEvaluator.scoresBeforeOverall cfg r gt q) "overall".toList
            (DomainEvaluator.calculate_weighted_score cfg
              (MedicalDomainEvaluator.scoresBeforeOverall cfg r gt q)) from rfl]
    rw [dictGet_dictSet_self]
    rfl
  · exact dictSet_forall (fun v => 0 ≤ v ∧ v ≤ 1) _ "overall".toList _ hsbo hcws

/-- C2 witness: the amended bound instantiated at a concrete medical
configuration (no criteria, hence trivially nonnegative weights) and
concrete inputs. -/
theorem C2_evaluate_bounds_witness :
    (∀ qc ∈ c1Config.knowledge.quality_criteria, 0 ≤ qc.weight)
    ∧ ((dictGet (MedicalDomainEvaluator.evaluate c1Config "의사와 상담하세요".toList
          "정답".toList "질문".toList) "overall".toList).isSome
       ∧ ∀ p ∈ MedicalDomainEvaluator.evaluate c1Config "의사와 상담하세요".toList
           "정답".toList "질문".toList, 0 ≤ p.2 ∧ p.2 ≤ 1) :=
  ⟨by intro qc hqc; simp [c1Config] at hqc,
   C2_evaluate_bounds c1Config "의사와 상담하세요".toList "정답".toList "질문".toList
     (by intro qc hqc; simp [c1Config] at hqc)⟩

/-- C2 counterexample: over an arbitrary `DomainConfig` the claim fails —
with a criterion of (unvalidated) weight −0.4 the returned `overall`
value is 3, outside `[0,1]`. -/
theorem C2_counterexample :
    dictGet (MedicalDomainEvaluator.evaluate c2Config [] [] []) "overall".toList = some 3
    ∧ ¬ ((3 : ℚ) ≤ 1) := by
  have hcc : MedicalDomainEvaluator.check_constraints c2Config [] = 1 := by
    rw [med_check_constraints_empty c2Config [] rfl]
    rw [show MedicalDomainEvaluator.dangerousCount [] = 0 from by decide]
    norm_num
  have hcp : MedicalDomainEvaluator.check_principles c2Config [] = 1 / 2 := by
    unfold MedicalDomainEvaluator.check_principles
    rw [if_pos (by decide)]
    unfold MedicalDomainEvaluator._check_default_medical_principles
    dsimp only
    rw [if_neg (by decide), if_neg (by decide), if_neg (by decide)]
    norm_num
  have hqc : MedicalDomainEvaluator.evaluate_criterion []
      { name := "c".toList, weight := -0.4 } = 1 / 2 := by
    unfold MedicalDomainEvaluator.evaluate_criterion
    dsimp only
    rw [if_neg (by decide), if_neg (by decide), if_neg (by decide), if_neg (by decide),
      if_neg (by decide)]
    norm_num
  have hsbo : MedicalDomainEvaluator.scoresBeforeOverall c2Config [] [] []
      = [("constraint_compliance".toList, (1 : ℚ)),
         ("principle_alignment".toList, (1 / 2 : ℚ)),
         ("c".toList, (1 / 2 : ℚ))] := by
    unfold MedicalDomainEvaluator.scoresBeforeOverall
    dsimp only
    rw [show DomainEvaluator.evaluate_against_cases c2Config [] [] = none from rfl]
    rw [if_pos (by decide), hcc, hcp]
    rw [show c2Config.knowledge.quality_criteria
        = [({ name := "c".toList, weight := -0.4 } : QualityCriterion)] from rfl]
    rw [List.foldl_cons, List.foldl_nil, hqc]
    rfl
  have hw1 : DomainEvaluator.metricWeight c2Config "constraint_compliance".toList
      = 0.25 := rfl
  have hw2 : DomainEvaluator.metricWeight c2Config "principle_alignment".toList
      = 0.2 := rfl
  have hw3 : DomainEvaluator.metricWeight c2Config "c".toList = -0.4 := rfl
  have hover : DomainEvaluator.calculate_weighted_score c2Config
      [("constraint_compliance".toList, (1 : ℚ)),
       ("principle_alignment".toList, (1 / 2 : ℚ)),
       ("c".toList, (1 / 2 : ℚ))] = 3 := by
    unfold DomainEvaluator.calculate_weighted_score
    dsimp only
    rw [if_neg (show ¬ (List.isEmpty
        [("constraint_compliance".toList, (1 : ℚ)),
         ("principle_alignment".toList, (1 / 2 : ℚ)),
         ("c".toList, (1 / 2 : ℚ))] = true) from by decide)]
    have hfil : List.filter (fun p => decide (p.1 ≠ "overall".toList))
        [("constraint_compliance".toList, (1 : ℚ)),
         ("principle_alignment".toList, (1 / 2 : ℚ)),
         ("c".toList, (1 / 2 : ℚ))]
        = [("constraint_compliance".toList, (1 : ℚ)),
           ("principle_alignment".toList, (1 / 2 : ℚ)),
           ("c".toList, (1 / 2 : ℚ))] := by
      rw [List.filter_cons, if_pos (by decide), List.filter_cons, if_pos (by decide),
        List.filter_cons, if_pos (by decide), List.filter_nil]
    rw [cws_foldl_sums, hfil]
    simp only [List.map_cons, List.map_nil, List.sum_cons, List.sum_nil, hw1, hw2, hw3]
    rw [if_pos (by norm_num)]
    norm_num
  constructor
  · rw [show MedicalDomainEvaluator.evaluate c2Config [] [] []
        = dictSet (MedicalDomainEvaluator.scoresBeforeOverall c2Config [] [] [])
            "overall".toList
            (DomainEvaluator.calculate_weighted_score c2Config
              (MedicalDomainEvaluator.scoresBeforeOverall c2Config [] [] [])) from rfl]
    rw [hsbo, hover, dictGet_dictSet_self]
  · norm_num

/-! ## Claim C5 -/

/-- Resolving a plain named field either substitutes its value or raises
`KeyError` for that name — never any other exception. -/
theorem resolveField_plain (vars : List (Str × Str)) (f : Str)
    (h : plainNamedField f = true) :
    (∃ v, dictGet vars f = some v ∧ resolveField vars f = .ok v)
    ∨ (dictGet vars f = none ∧ resolveField vars f = .error (.keyError f)) := by
  have h1 : (¬f = [] ∧ ∃ x ∈ f, x.isDigit = false)
      ∧ ∀ x ∈ f, ((¬x = '.' ∧ ¬x = '[') ∧ ¬x = '!') ∧ ¬x = ':' := by
    simpa [plainNamedField] using h
  have hemp : f.isEmpty = false := by
    simp [List.isEmpty_iff, h1.1.1]
  have hdig : f.all Char.isDigit = false := by
    obtain ⟨x, hx, hxd⟩ := h1.1.2
    rw [Bool.eq_false_iff]
    intro hall
    rw [List.all_eq_true] at hall
    have hx2 := hall x hx
    rw [hxd] at hx2
    exact Bool.false_ne_true hx2
  have ht1 : f.takeWhile (fun c => c ≠ '!' && c ≠ ':') = f := by
    rw [List.takeWhile_eq_self_iff]
    intro c hc
    simp [(h1.2 c hc).1.2, (h1.2 c hc).2]
  have ht2 : f.takeWhile (fun c => c ≠ '.' && c ≠ '[') = f := by
    rw [List.takeWhile_eq_self_iff]
    intro c hc
    simp [(h1.2 c hc).1.1.1, (h1.2 c hc).1.1.2]
  unfold resolveField
  dsimp only
  rw [ht1, ht2]
  rw [if_neg (by simp [hemp, hdig])]
  cases hlook : dictGet vars f with
  | none => exact Or.inr ⟨rfl, rfl⟩
  | some v =>
    refine Or.inl ⟨v, rfl, ?_⟩
    simp

/-- Formatting a template whose brace structure parses to plain named
fields either succeeds or raises `KeyError` — never `ValueError`,
`IndexError` or `AttributeError`. -/
theorem pyFormatGo_plain_ok (vars : List (Str × Str)) :
    ∀ (n : ℕ) (s : Str) (mode : Option Str) (fs : List Str),
      s.length ≤ n →
      fieldsGo mode s = some fs →
      (∀ f ∈ fs, plainNamedField f = true) →
      (∃ out, pyFormatGo vars mode s = .ok out)
      ∨ (∃ k, pyFormatGo vars mode s = .error (.keyError k)) := by
  intro n
  induction n with
  | zero =>
    intro s mode fs hlen hp _hpl
    have hs : s = [] := List.length_eq_zero.mp (Nat.le_zero.mp hlen)
    subst hs
    cases mode with
    | none => exact Or.inl ⟨[], rfl⟩
    | some acc => simp [fieldsGo] at hp
  | succ n ih =>
    intro s mode fs hlen hp hpl
    match s with
    | [] =>
      cases mode with
      | none => exact Or.inl ⟨[], rfl⟩
      | some acc => simp [fieldsGo] at hp
    | c :: cs =>
      cases mode with
      | none =>
        by_cases hbl : c = braceL
        · cases cs with
          | nil =>
            simp only [fieldsGo, if_pos hbl] at hp
            exact Option.noConfusion hp
          | cons c2 cs2 =>
            by_cases hb2 : c2 = braceL
            · simp only [fieldsGo, if_pos hbl, if_pos hb2] at hp
              have hlen2 : cs2.length ≤ n := by
                simp only [List.length_cons] at hlen
                omega
              rcases ih cs2 none fs hlen2 hp hpl with ⟨out, hout⟩ | ⟨k, hk⟩
              · refine Or.inl ⟨braceL :: out, ?_⟩
                simp only [pyFormatGo, if_pos hbl, if_pos hb2, hout]
                rfl
              · refine Or.inr ⟨k, ?_⟩
                simp only [pyFormatGo, if_pos hbl, if_pos hb2, hk]
                rfl
            · have heq : fieldsGo none (c :: c2 :: cs2) = fieldsGo (some []) (c2 :: cs2) := by
                simp only [fieldsGo, if_pos hbl, if_neg hb2]
              have geq : pyFormatGo vars none (c :: c2 :: cs2)
                  = pyFormatGo vars (some []) (c2 :: cs2) := by
                simp only [pyFormatGo, if_pos hbl, if_neg hb2]
              rw [heq] at hp
              rw [geq]
              have hlen2 : (c2 :: cs2).length ≤ n := by
                simp only [List.length_cons] at hlen ⊢
                omega
              exact ih (c2 :: cs2) (some []) fs hlen2 hp hpl
        · by_cases hbr : c = braceR
          · cases cs with
            | nil =>
              simp only [fieldsGo, if_neg hbl, if_pos hbr] at hp
              exact Option.noConfusion hp
            | cons c2 cs2 =>
              by_cases hb2 : c2 = braceR
              · simp only [fieldsGo, if_neg hbl, if_pos hbr, if_pos hb2] at hp
                have hlen2 : cs2.length ≤ n := by
                  simp only [List.length_cons] at hlen
                  omega
                rcases ih cs2 none fs hlen2 hp hpl with ⟨out, hout⟩ | ⟨k, hk⟩
                · refine Or.inl ⟨braceR :: out, ?_⟩
                  simp only [pyFormatGo, if_neg hbl, if_pos hbr, if_pos hb2, hout]
                  rfl
                · refine Or.inr ⟨k, ?_⟩
                  simp only [pyFormatGo, if_neg hbl, if_pos hbr, if_pos hb2, hk]
                  rfl
              · simp only [fieldsGo, if_neg hbl, if_pos hbr, if_neg hb2] at hp
                exact Option.noConfusion hp
          · cases cs with
            | nil =>
              refine Or.inl ⟨[c], ?_⟩
              simp only [pyFormatGo, if_neg hbl, if_neg hbr]
              rfl
            | cons c2 cs2 =>
              simp only [fieldsGo, if_neg hbl, if_neg hbr] at hp
              have hlen2 : (c2 :: cs2).length ≤ n := by
                simp only [List.length_cons] at hlen ⊢
                omega
              rcases ih (c2 :: cs2) none fs hlen2 hp hpl with ⟨out, hout⟩ | ⟨k, hk⟩
              · refine Or.inl ⟨c :: out, ?_⟩
                simp only [pyFormatGo, if_neg hbl, if_neg hbr, hout]
                rfl
              · refine Or.inr ⟨k, ?_⟩
                simp only [pyFormatGo, if_neg hbl, if_neg hbr, hk]
                rfl
      | some acc =>
        by_cases hbr : c = braceR
        · simp only [fieldsGo, if_pos hbr] at hp
          cases hrest : fieldsGo none cs with
          | none =>
            rw [hrest] at hp
            simp at hp
          | some fs2 =>
            rw [hrest] at hp
            have hfs : fs = acc.reverse :: fs2 := by
              simpa using hp.symm
            have hplf : plainNamedField acc.reverse = true := by
              apply hpl
              rw [hfs]
              exact List.mem_cons_self _ _
            have hpl2 : ∀ f ∈ fs2, plainNamedField f = true := by
              intro f hf
              apply hpl
              rw [hfs]
              exact List.mem_cons_of_mem _ hf
            have hlen2 : cs.length ≤ n := by
              simp only [List.length_cons] at hlen
              omega
            rcases resolveField_plain vars acc.reverse hplf with ⟨v, _hlook, hres⟩
              | ⟨_hlook, hres⟩
            · rcases ih cs none fs2 hlen2 hrest hpl2 with ⟨out, hout⟩ | ⟨k, hk⟩
              · refine Or.inl ⟨v ++ out, ?_⟩
                simp only [pyFormatGo, if_pos hbr, hres, hout]
                rfl
              · refine Or.inr ⟨k, ?_⟩
                simp only [pyFormatGo, if_pos hbr, hres, hk]
                rfl
            · refine Or.inr ⟨acc.reverse, ?_⟩
              simp only [pyFormatGo, if_pos hbr, hres]
        · by_cases hbl : c = braceL
          · simp only [fieldsGo, if_neg hbr, if_pos hbl] at hp
            exact Option.noConfusion hp
          · simp only [fieldsGo, if_neg hbr, if_neg hbl] at hp
            have hlen2 : cs.length ≤ n := by
              simp only [List.length_cons] at hlen
              omega
            rcases ih cs (some (c :: acc)) fs hlen2 hp hpl with ⟨out, hout⟩ | ⟨k, hk⟩
            · refine Or.inl ⟨out, ?_⟩
              simp only [pyFormatGo, if_neg hbr, if_neg hbl]
              exact hout
            · refine Or.inr ⟨k, ?_⟩
              simp only [pyFormatGo, if_neg hbr, if_neg hbl]
              exact hk

/-- C5 (amended): when every replacement field of a custom template is a
well-formed plain name, `generate_critique_prompt` and
`generate_refinement_prompt` do not raise; substitution failure on an
unknown name (`KeyError`) triggers the literal find-and-replace fallback
over the known variables, leaving unknown placeholders verbatim; but a
template with malformed braces, a positional field, or attribute access
still raises (`ValueError`/`IndexError`/`AttributeError`). -/
theorem C5_template_fallback (cfg : DomainConfig) (instruction examples critique : Str)
    (scores : Option (List (Str × ℚ))) :
    (∀ fs, parseFields cfg.critique_template = some fs →
        (∀ f ∈ fs, plainNamedField f = true) →
        ∃ out, DomainCritiqueGenerator.generate_critique_prompt cfg instruction examples
          scores = .ok out)
    ∧ (∀ k, pythonFormat cfg.critique_template
          (DomainCritiqueGenerator.critiqueVariables cfg instruction examples scores)
          = .error (.keyError k) →
        DomainCritiqueGenerator.generate_critique_prompt cfg instruction examples scores
          = .ok (fallbackReplace cfg.critique_template
              (DomainCritiqueGenerator.critiqueVariables cfg instruction examples scores)))
    ∧ (∀ fs, parseFields cfg.refinement_template = some fs →
        (∀ f ∈ fs, plainNamedField f = true) →
        ∃ out, DomainCritiqueGenerator.generate_refinement_prompt cfg instruction examples
          critique = .ok out)
    ∧ (∀ k, pythonFormat cfg.refinement_template
          (DomainCritiqueGenerator.refinementVariables cfg instruction examples critique)
          = .error (.keyError k) →
        DomainCritiqueGenerator.generate_refinement_prompt cfg instruction examples critique
          = .ok (fallbackReplace cfg.refinement_template
              (DomainCritiqueGenerator.refinementVariables cfg instruction examples
                critique))) := by
  refine ⟨?_, ?_, ?_, ?_⟩
  · intro fs hp hpl
    by_cases ht : cfg.critique_template.isEmpty
    · refine ⟨DomainCritiqueGenerator._generate_default_critique cfg instruction examples
        scores, ?_⟩
      unfold DomainCritiqueGenerator.generate_critique_prompt
      rw [if_pos ht]
    · unfold DomainCritiqueGenerator.generate_critique_prompt
      rw [if_neg ht]
      unfold DomainCritiqueGenerator._format_custom_template
      dsimp only
      rcases pyFormatGo_plain_ok
          (DomainCritiqueGenerator.critiqueVariables cfg instruction examples scores)
          cfg.critique_template.length cfg.critique_template none fs le_rfl hp hpl
        with ⟨out, hout⟩ | ⟨k, hk⟩
      · refine ⟨out, ?_⟩
        unfold pythonFormat
        rw [hout]
      · refine ⟨fallbackReplace cfg.critique_template
          (DomainCritiqueGenerator.critiqueVariables cfg instruction examples scores), ?_⟩
        unfold pythonFormat
        rw [hk]
  · intro k hk
    by_cases ht : cfg.critique_template.isEmpty
    · rw [List.isEmpty_iff.mp ht] at hk
      simp [pythonFormat, pyFormatGo] at hk
    · unfold DomainCritiqueGenerator.generate_critique_prompt
      rw [if_neg ht]
      unfold DomainCritiqueGenerator._format_custom_template
      dsimp only
      rw [hk]
  · intro fs hp hpl
    by_cases ht : cfg.refinement_template.isEmpty
    · refine ⟨DomainCritiqueGenerator._generate_default_refinement cfg instruction examples
        critique, ?_⟩
      unfold DomainCritiqueGenerator.generate_refinement_prompt
      rw [if_pos ht]
    · unfold DomainCritiqueGenerator.generate_refinement_prompt
      rw [if_neg ht]
      unfold DomainCritiqueGenerator._format_refinement_template
      dsimp only
      rcases pyFormatGo_plain_ok
          (DomainCritiqueGenerator.refinementVariables cfg instruction examples critique)
          cfg.refinement_template.length cfg.refinement_template none fs le_rfl hp hpl
        with ⟨out, hout⟩ | ⟨k, hk⟩
      · refine ⟨out, ?_⟩
        unfold pythonFormat
        rw [hout]
      · refine ⟨fallbackReplace cfg.refinement_template
          (DomainCritiqueGenerator.refinementVariables cfg instruction examples critique), ?_⟩
        unfold pythonFormat
        rw [hk]
  · intro k hk
    by_cases ht : cfg.refinement_template.isEmpty
    · rw [List.isEmpty_iff.mp ht] at hk
      simp [pythonFormat, pyFormatGo] at hk
    · unfold DomainCritiqueGenerator.generate_refinement_prompt
      rw [if_neg ht]
      unfold DomainCritiqueGenerator._format_refinement_template
      dsimp only
      rw [hk]

/-- C5 counterexample: the generators do raise on malformed or positional
templates — only `KeyError` is recovered, so an unterminated brace
propagates `ValueError` and a positional field propagates
`IndexError`. -/
theorem C5_counterexample :
    DomainCritiqueGenerator.generate_critique_prompt c5Config "i".toList "e".toList none
      = .error .valueError
    ∧ DomainCritiqueGenerator.generate_refinement_prompt c5Config "i".toList "e".toList
        "c".toList = .error .indexError := by
  constructor
  · rfl
  · rfl

/-- C5 witness: the no-raise guarantee instantiated at a concrete
plain-named template. -/
theorem C5_template_fallback_witness :
    (parseFields c5WitnessConfig.critique_template = some ["instruction".toList]
     ∧ ∀ f ∈ ["instruction".toList], plainNamedField f = true)
    ∧ ∃ out, DomainCritiqueGenerator.generate_critique_prompt c5WitnessConfig
        "i".toList "e".toList none = .ok out :=
  ⟨⟨by decide, by decide⟩,
   (C5_template_fallback c5WitnessConfig "i".toList "e".toList "c".toList none).1
     ["instruction".toList] (by decide) (by decide)⟩
